import Mathlib

/-!
Verification development for the reffy Linear synchronization engine
(src/linear.ts, src/storage.ts, src/types.ts).

Shallow embedding conventions:
* JavaScript strings are Lean `String`s; string-level operations from the
  source (trim, CRLF replacement, lowercasing, prefix tests) are modelled
  over the underlying character lists (ASCII scope; JS `trim`,
  `toLowerCase`, `\w`, `\s` agree with the model on ASCII input).
* JS `undefined` / `null` / optional fields are `Option`; JS truthiness of
  a possibly-absent string (`if (x)`) is `truthyS` (absent or `""` is falsy).
* ISO-8601 timestamp strings are modelled by their parsed time values
  (`Option Nat`): `parseTs` returning `null` corresponds to `none`,
  and `Date` comparison to `Nat` comparison.
* Remote calls (`LinearClient` methods) and push-side file reads are an
  explicit environment `Env` of functions returning `Except String` values
  (a thrown error is `.error msg` where `msg` stands for `String(error)`).
* The local store (`ReferencesStore`) is an explicit `StoreState`
  (manifest artifact list, conflict list, file contents keyed by path,
  a counter for fresh `randomUUID` identifiers).
* The single `writeMapping` at the end of a run is modelled by the
  `written` trace field of the result (one element per write call).
-/

namespace Reffy

/-- JS truthiness of an optional string: `undefined`, `null` and `""` are falsy. -/
def truthyS : Option String → Bool
  | none => false
  | some s => s != ""

/-- Whitespace characters recognised by the model (ASCII fragment of JS `\s` / `trim`). -/
def isWsChar (c : Char) : Bool :=
  c == ' ' || c == '\t' || c == '\n' || c == '\r'

/-- Drop leading and trailing whitespace (JS `String.prototype.trim` on ASCII input). -/
def trimChars (l : List Char) : List Char :=
  ((l.dropWhile isWsChar).reverse.dropWhile isWsChar).reverse

/-- Left-to-right non-overlapping replacement of `"\r\n"` by `"\n"`
(JS `value.replace(/\r\n/g, "\n")`). -/
def replCrlf : List Char → List Char
  | [] => []
  | '\r' :: '\n' :: rest => '\n' :: replCrlf rest
  | c :: rest => c :: replCrlf rest

/-- `LinearSync.normalizeText`: `value.trim().replace(/\r\n/g, "\n")`. -/
def normalizeText (s : String) : String :=
  String.mk (replCrlf (trimChars s.data))

/-- JS `toLowerCase` on ASCII input. -/
def lowerStr (s : String) : String :=
  String.mk (s.data.map Char.toLower)

/-- `LinearSync.titleKey`: `normalizeText(value).toLowerCase()`. -/
def titleKey (s : String) : String :=
  lowerStr (normalizeText s)

/-- `LinearSync.fingerprint`:
`` `${normalizeText(title).toLowerCase()}::${normalizeText(description)}` ``. -/
def fingerprint (title description : String) : String :=
  lowerStr (normalizeText title) ++ "::" ++ normalizeText description

/-- JS `String.prototype.startsWith` (character-level). -/
def strStartsWith (s pre : String) : Bool :=
  pre.data.isPrefixOf s.data

/-- `path.basename` for the paths this system builds (the component after
the last `/`; node's trailing-slash trimming is not needed for nonempty
final components). -/
def basename (s : String) : String :=
  String.mk ((s.data.reverse.takeWhile (fun c => c != '/')).reverse)

/-- The artifacts directory (`<repoRoot>/.references/artifacts`); the repo
root prefix is fixed since no claim depends on it. -/
def artifactsDir : String := ".references/artifacts"

/-- Decimal digit character. -/
def digitChar (d : Nat) : Char := Char.ofNat (48 + d)

/-- Decimal rendering of a natural number (JS template interpolation of a counter). -/
def natToStr (n : Nat) : String :=
  if n = 0 then "0" else String.mk (((Nat.digits 10 n).reverse).map digitChar)

/-- `Artifact` (src/types.ts); `created_at` / `updated_at` ISO strings are
modelled by their parsed time values. -/
structure Artifact where
  id : String
  name : String
  filename : String
  kind : String
  mime_type : String
  size_bytes : Nat
  tags : List String
  created_at : Option Nat
  updated_at : Option Nat
  deriving Repr, DecidableEq

/-- `ConflictEntry` (src/types.ts). -/
structure ConflictEntry where
  artifact_id : String
  source : String
  note : String
  conflict_artifact_id : Option String
  created_at : Option Nat
  deriving Repr, DecidableEq

/-- `MappingEntry` (src/linear.ts); timestamp strings modelled as parsed times. -/
structure MappingEntry where
  issue_id : Option String := none
  issue_identifier : Option String := none
  issue_team_name : Option String := none
  issue_team_id : Option String := none
  issue_project_name : Option String := none
  issue_project_id : Option String := none
  attachment_id : Option String := none
  attachment_url : Option String := none
  attachment_mtime : Option Nat := none
  attachment_size : Option Nat := none
  last_pushed_at : Option Nat := none
  last_pulled_at : Option Nat := none
  deriving Repr, DecidableEq

/-- `LinearIssueNode` (src/linear.ts): one element of `listIssues`'s result;
`labels` is the list of `labels.nodes[].name` values. -/
structure IssueNode where
  id : Option String := none
  identifier : Option String := none
  title : Option String := none
  description : Option String := none
  team_id : Option String := none
  team_name : Option String := none
  project_id : Option String := none
  project_name : Option String := none
  labels : List (Option String) := []
  deriving Repr, DecidableEq

/-- `LinearConfig` (src/linear.ts). -/
structure LinearConfig where
  api_key : Option String := none
  oauth_token : Option String := none
  team_id : Option String := none
  project_id : Option String := none
  pull_create : Bool := false
  pull_label : Option String := none
  push_label : Option String := none
  deriving Repr, DecidableEq

/-- `LinearClient.isConfigured`: `Boolean(api_key || oauth_token)`. -/
def isConfigured (cfg : LinearConfig) : Bool :=
  truthyS cfg.api_key || truthyS cfg.oauth_token

/-- `maxTs` (src/linear.ts). -/
def maxTs : Option Nat → Option Nat → Option Nat
  | none, b => b
  | some a, none => some a
  | some a, some b => some (if a > b then a else b)

/-- The mapping file content `mapping.artifacts` as an insertion-ordered
association list (a JS object with string keys). -/
abbrev RecM := List (String × MappingEntry)

/-- First-match lookup in an association list (JS property read). -/
def lookupA {β : Type} (l : List (String × β)) (k : String) : Option β :=
  (l.find? (fun p => p.1 == k)).map (fun p => p.2)

/-- JS property assignment on an object: replace the key's binding in place
if present, otherwise append the new binding (insertion order). -/
def setA {β : Type} : List (String × β) → String → β → List (String × β)
  | [], k, v => [(k, v)]
  | (k', v') :: rest, k, v =>
      if k' == k then (k, v) :: rest else (k', v') :: setA rest k v

/-- File system contents: full path to utf-8 content. -/
abbrev Files := List (String × String)

/-- `ReferencesStore` state: the manifest's artifact and conflict lists, the
on-disk artifact files, and a counter supplying fresh `randomUUID` values.
(The manifest's own version/created/updated bookkeeping carries no claim
and is elided.) -/
structure StoreState where
  artifacts : List Artifact
  conflicts : List ConflictEntry
  files : Files
  nextId : Nat
  deriving Repr

/-- `ReferencesStore.getArtifactPath`. -/
def artifactPath (a : Artifact) : String :=
  artifactsDir ++ "/" ++ a.filename

/-- `ReferencesStore.getArtifact`: first manifest artifact with the id. -/
def storeGetArtifact (st : StoreState) (artifactId : String) : Option Artifact :=
  st.artifacts.find? (fun a => a.id == artifactId)

/-- Raw optional response of the `issue` query (before `LinearClient.getIssue`
validation and defaulting). -/
structure GetIssueRaw where
  id : Option String := none
  identifier : Option String := none
  title : Option String := none
  description : Option String := none
  team_id : Option String := none
  team_name : Option String := none
  project_id : Option String := none
  project_name : Option String := none
  deriving Repr, DecidableEq

/-- `LinearClient.getIssue`'s validated result. -/
structure GotIssue where
  id : String
  identifier : String
  title : String
  description : String
  team_id : Option String := none
  team_name : Option String := none
  project_id : Option String := none
  project_name : Option String := none
  deriving Repr, DecidableEq

/-- Input of `LinearClient.createIssue`. -/
structure CreateIssueIn where
  title : String
  description : String
  team_id : String
  project_id : Option String := none
  label_ids : Option (List String) := none
  deriving Repr, DecidableEq

/-- Raw result of the `fileUpload` mutation (before validation). -/
structure UploadRaw where
  success : Bool := false
  uploadUrl : Option String := none
  assetUrl : Option String := none
  deriving Repr, DecidableEq

/-- Result of the `PUT` to the upload url. -/
structure PutRes where
  ok : Bool
  status : Nat
  deriving Repr, DecidableEq

/-- `fs.stat` result fields the engine reads. -/
structure StatInfo where
  mtime : Nat
  size : Nat
  deriving Repr, DecidableEq

/-- The engine's effect environment: remote gateway calls (each returning
`.error msg` when the call rejects) and push-side file system reads. `now`
is the run's clock (`nowIso()`); push-side text reads return `none` on
failure because the caller discards the error. -/
structure Env where
  getFirstTeamId : Except String (Option String)
  getLabelId : String → String → Except String (Option String)
  listIssues : Nat → Except String (List IssueNode)
  updateIssue : String → String → String → Except String (Option String × Option String)
  createIssue : CreateIssueIn → Except String (Option String × Option String)
  getIssue : String → Except String GetIssueRaw
  fileUpload : String → String → Nat → Except String UploadRaw
  putUpload : String → Except String PutRes
  createAttachment : String → String → String → Except String (Option String)
  readFile : String → Option String
  readBin : String → Except String Unit
  stat : String → Option StatInfo
  now : Nat

/-- `LinearClient.updateIssue` validation: throw `issue_update_failed` unless
both `issue.id` and `issue.identifier` are truthy. -/
def clientUpdateIssue (env : Env) (issueId title description : String) :
    Except String (String × String) :=
  match env.updateIssue issueId title description with
  | .error e => .error e
  | .ok (oid, oident) =>
      if truthyS oid && truthyS oident then .ok (oid.getD "", oident.getD "")
      else .error "issue_update_failed"

/-- `LinearClient.createIssue` validation: throw `issue_create_failed` unless
both `issue.id` and `issue.identifier` are truthy. -/
def clientCreateIssue (env : Env) (input : CreateIssueIn) :
    Except String (String × String) :=
  match env.createIssue input with
  | .error e => .error e
  | .ok (oid, oident) =>
      if truthyS oid && truthyS oident then .ok (oid.getD "", oident.getD "")
      else .error "issue_create_failed"

/-- `LinearClient.getIssue` validation and defaulting: throw `issue_not_found`
unless `issue.id` is truthy; default the text fields to `""`. -/
def clientGetIssue (env : Env) (issueId : String) : Except String GotIssue :=
  match env.getIssue issueId with
  | .error e => .error e
  | .ok raw =>
      if truthyS raw.id then
        .ok { id := raw.id.getD "", identifier := raw.identifier.getD "",
              title := raw.title.getD "", description := raw.description.getD "",
              team_id := raw.team_id, team_name := raw.team_name,
              project_id := raw.project_id, project_name := raw.project_name }
      else .error "issue_not_found"

/-- `LinearClient.fileUpload` validation: throw `file_upload_failed` unless
`success`, `uploadUrl` and `assetUrl` are all truthy (header plumbing, which
cannot fail, is elided). -/
def clientFileUpload (env : Env) (contentType filename : String) (size : Nat) :
    Except String (String × String) :=
  match env.fileUpload contentType filename size with
  | .error e => .error e
  | .ok raw =>
      if raw.success && truthyS raw.uploadUrl && truthyS raw.assetUrl then
        .ok (raw.uploadUrl.getD "", raw.assetUrl.getD "")
      else .error "file_upload_failed"

/-- `LinearClient.createAttachment` validation: throw `attachment_create_failed`
unless the returned id is truthy. -/
def clientCreateAttachment (env : Env) (issueId title url : String) :
    Except String String :=
  match env.createAttachment issueId title url with
  | .error e => .error e
  | .ok oid => if truthyS oid then .ok (oid.getD "") else .error "attachment_create_failed"

/-- `LinearSync.artifactDescription`, parameterised by the reader used for the
text branch (the `try`/`catch` collapses a failed read to `""`; the binary
branch cannot throw). -/
def artifactDescriptionVia (read : String → Option String) (a : Artifact) : String :=
  if strStartsWith a.mime_type "text/" then (read (artifactPath a)).getD ""
  else "Binary artifact: " ++ basename (artifactPath a)

/-- `LinearSync.hasLabel`: vacuously true without a (truthy) label name;
otherwise membership among the issue's present label names (the source's
`filter(Boolean)` only removes falsy names, which cannot equal the truthy
`labelName`). -/
def hasLabel (issue : IssueNode) (labelName : Option String) : Bool :=
  if !truthyS labelName then true
  else (issue.labels.filterMap id).contains (labelName.getD "")

/-- Does the pattern occur as a contiguous substring (regex `test` of a
literal pattern)? -/
def containsSub (pat : List Char) : List Char → Bool
  | [] => pat.isPrefixOf []
  | c :: rest => pat.isPrefixOf (c :: rest) || containsSub pat rest

/-- `LinearSync.isConflictArtifact`: tag `"conflict"` (case-insensitive) or
name matching `/\(conflict\)/i` (modelled by searching the lowercased name
for the lowercase pattern, equivalent on ASCII). -/
def isConflictArtifact (a : Artifact) : Bool :=
  (a.tags.map lowerStr).contains "conflict" ||
    containsSub "(conflict)".data (lowerStr a.name).data

/-- Which timestamp `mappingEntryFromIssue` stamps. -/
inductive TsKey | pushed | pulled
  deriving Repr, DecidableEq

/-- `LinearSync.mappingEntryFromIssue`. -/
def mappingEntryFromIssue (issue : IssueNode) (now : Nat) (key : TsKey) : MappingEntry :=
  let base : MappingEntry :=
    { issue_id := issue.id, issue_identifier := issue.identifier,
      issue_team_name := issue.team_name, issue_team_id := issue.team_id,
      issue_project_name := issue.project_name, issue_project_id := issue.project_id }
  match key with
  | .pushed => { base with last_pushed_at := some now }
  | .pulled => { base with last_pulled_at := some now }

/-- The remote-by-fingerprint bucket for a key: the issues with a truthy id
carrying the push label whose fingerprint is the key, in encounter order
(extensionally the `remoteByFingerprint.get(key) ?? []` of the prebuilt map). -/
def fpGroup (issues : List IssueNode) (pushLabel : Option String) (key : String) :
    List IssueNode :=
  issues.filter (fun i =>
    truthyS i.id && hasLabel i pushLabel &&
      fingerprint (i.title.getD "") (i.description.getD "") == key)

/-- The remote-by-title bucket for a key (extensionally
`remoteByTitle.get(titleKey) ?? []`). -/
def titleGroup (issues : List IssueNode) (pushLabel : Option String) (key : String) :
    List IssueNode :=
  issues.filter (fun i =>
    truthyS i.id && hasLabel i pushLabel && titleKey (i.title.getD "") == key)

/-- An issue is an unclaimed reuse candidate when its id is truthy and not in
the in-run used set. -/
def unclaimed (used : List String) (i : IssueNode) : Bool :=
  truthyS i.id && !used.contains (i.id.getD "")

/-- `candidateByFingerprint ?? candidateByTitle`: the first unclaimed
fingerprint match, else the first unclaimed title-only match. -/
def findCandidate (issues : List IssueNode) (pushLabel : Option String)
    (used : List String) (key tkey : String) : Option IssueNode :=
  match (fpGroup issues pushLabel key).find? (unclaimed used) with
  | some c => some c
  | none => (titleGroup issues pushLabel tkey).find? (unclaimed used)

/-- The in-run mutable state of `LinearSync.push`'s artifact loop. -/
structure PushState where
  mapping : RecM
  used : List String
  created : Nat := 0
  updated : Nat := 0
  reused : Nat := 0
  skippedConflict : Nat := 0
  skipped : Nat := 0
  createdIssueIds : List String := []
  createdIssueIdentifiers : List String := []
  updatedIssueIdentifiers : List String := []
  reusedIssueIdentifiers : List String := []
  errors : List String := []
  warnings : List String := []

/-- The `catch` of the per-artifact `try`: record the error keyed by the
artifact id and count the artifact as skipped, keeping all state mutations
made before the throw. -/
def pushFail (st : PushState) (artifactId msg : String) : PushState :=
  { st with errors := st.errors ++ [artifactId ++ ": " ++ msg],
            skipped := st.skipped + 1 }

/-- The attachment upload chain for one artifact (runs after an issue id has
been associated): on a stale content signature, `fileUpload`, read the binary,
`PUT` it, `createAttachment`, and record the new signature on the entry. -/
def attachmentChain (env : Env) (a : Artifact) (title issueId : String)
    (cur : MappingEntry) (s : StatInfo) : Except String MappingEntry :=
  if cur.attachment_mtime = some s.mtime ∧ cur.attachment_size = some s.size then
    .ok cur
  else
    match clientFileUpload env a.mime_type (basename (artifactPath a)) s.size with
    | .error e => .error e
    | .ok (uploadUrl, assetUrl) =>
      match env.readBin (artifactPath a) with
      | .error e => .error e
      | .ok _ =>
        match env.putUpload uploadUrl with
        | .error e => .error e
        | .ok pr =>
          if !pr.ok then .error ("attachment_upload_" ++ natToStr pr.status)
          else
            match clientCreateAttachment env issueId title assetUrl with
            | .error e => .error e
            | .ok attachmentId =>
                .ok { cur with attachment_id := some attachmentId,
                               attachment_url := some assetUrl,
                               attachment_mtime := some s.mtime,
                               attachment_size := some s.size }

/-- The tail of the per-artifact `try`: the attachment block and the
`last_pushed_at` stamp (skipped entirely, via `continue`, when the current
entry has no truthy issue id). -/
def pushAttach (env : Env) (a : Artifact) (title : String) (st : PushState) : PushState :=
  match lookupA st.mapping a.id with
  | none => st
  | some cur =>
    if !truthyS cur.issue_id then st
    else
      let upload : Except String MappingEntry :=
        match env.stat (artifactPath a) with
        | none => .ok cur
        | some s =>
            if a.mime_type != "text/markdown" then
              attachmentChain env a title (cur.issue_id.getD "") cur s
            else .ok cur
      match upload with
      | .error e => pushFail st a.id e
      | .ok cur' =>
          { st with mapping := setA st.mapping a.id
                      { cur' with last_pushed_at := some env.now } }

/-- The mapped branch of the per-artifact loop (`entry?.issue_id` truthy):
update the remote issue, record the identifier, then run the attachment tail. -/
def pushMapped (env : Env) (teamId : String) (a : Artifact)
    (title description : String) (entry : MappingEntry) (st : PushState) : PushState :=
  match clientUpdateIssue env (entry.issue_id.getD "") title description with
  | .error e => pushFail st a.id e
  | .ok (_, identifier) =>
      let entry' := { entry with issue_identifier := some identifier,
                                 issue_team_id := some teamId }
      let st' := { st with
        updated := st.updated + 1,
        updatedIssueIdentifiers := st.updatedIssueIdentifiers ++ [identifier],
        mapping := setA st.mapping a.id entry' }
      pushAttach env a title st'

/-- The unmapped branch: reuse the first unclaimed fingerprint/title match if
any, else create a new remote issue; then run the attachment tail. -/
def pushNoMapping (env : Env) (cfg : LinearConfig) (teamId : String)
    (labelIds : Option (List String)) (remoteIssues : List IssueNode)
    (a : Artifact) (title description : String) (st : PushState) : PushState :=
  let key := fingerprint title description
  let tkey := titleKey title
  let doCreate : PushState :=
    match clientCreateIssue env { title := title, description := description,
                                  team_id := teamId, project_id := cfg.project_id,
                                  label_ids := labelIds } with
    | .error e => pushFail st a.id e
    | .ok (cid, identifier) =>
        let st' := { st with
          mapping := setA st.mapping a.id
            { issue_id := some cid, issue_identifier := some identifier },
          used := st.used ++ [cid],
          created := st.created + 1,
          createdIssueIds := st.createdIssueIds ++ [cid],
          createdIssueIdentifiers := st.createdIssueIdentifiers ++ [identifier] }
        pushAttach env a title st'
  match findCandidate remoteIssues cfg.push_label st.used key tkey with
  | some c =>
      if truthyS c.id then
        let st' := { st with
          mapping := setA st.mapping a.id (mappingEntryFromIssue c env.now .pushed),
          used := st.used ++ [c.id.getD ""],
          reused := st.reused + 1,
          reusedIssueIdentifiers := st.reusedIssueIdentifiers ++
            (if truthyS c.identifier then [c.identifier.getD ""] else []) }
        pushAttach env a title st'
      else doCreate
  | none => doCreate

/-- One iteration of `LinearSync.push`'s artifact loop. -/
def pushStep (env : Env) (cfg : LinearConfig) (teamId : String)
    (labelIds : Option (List String)) (remoteIssues : List IssueNode)
    (st : PushState) (a : Artifact) : PushState :=
  if isConflictArtifact a then
    { st with skippedConflict := st.skippedConflict + 1 }
  else
    let title := if a.name = "" then "Untitled" else a.name
    let description := artifactDescriptionVia env.readFile a
    match lookupA st.mapping a.id with
    | some entry =>
        if truthyS entry.issue_id then pushMapped env teamId a title description entry st
        else pushNoMapping env cfg teamId labelIds remoteIssues a title description st
    | none => pushNoMapping env cfg teamId labelIds remoteIssues a title description st

/-- The in-run "used remote ids" set seeded from the loaded mapping
(`Object.values(mapping.artifacts).map(issue_id).filter(Boolean)`). -/
def seedUsed (m : RecM) : List String :=
  (m.map (fun p => p.2.issue_id)).filterMap (fun o =>
    match o with
    | some s => if s = "" then none else some s
    | none => none)

/-- The result object of `LinearSync.push`, plus the `writeMapping` trace. -/
structure PushOut where
  status : String
  message : Option String := none
  created : Nat := 0
  updated : Nat := 0
  reused : Nat := 0
  skipped_conflict : Nat := 0
  skipped : Nat := 0
  created_issue_ids : List String := []
  created_issue_identifiers : List String := []
  updated_issue_identifiers : List String := []
  reused_issue_identifiers : List String := []
  errors : List String := []
  warnings : List String := []
  written : List RecM := []

/-- The body of `LinearSync.push` once the credential, team id and label ids
have been resolved: the remote-issue listing (a failure silently becomes an
empty list), the artifact loop, and the final result with its single
`writeMapping`. -/
def pushRun (env : Env) (cfg : LinearConfig) (teamId : String)
    (labelIds : Option (List String)) (warns : List String) (mapping : RecM)
    (artifacts : List Artifact) : PushOut :=
  let remoteIssues :=
    match env.listIssues 100 with
    | .ok l => l
    | .error _ => []
  let st0 : PushState :=
    { mapping := mapping, used := seedUsed mapping, warnings := warns }
  let stF := artifacts.foldl (pushStep env cfg teamId labelIds remoteIssues) st0
  { status := "ok",
    created := stF.created, updated := stF.updated, reused := stF.reused,
    skipped_conflict := stF.skippedConflict, skipped := stF.skipped,
    created_issue_ids := stF.createdIssueIds,
    created_issue_identifiers := stF.createdIssueIdentifiers,
    updated_issue_identifiers := stF.updatedIssueIdentifiers,
    reused_issue_identifiers := stF.reusedIssueIdentifiers,
    errors := stF.errors, warnings := stF.warnings,
    written := [stF.mapping] }

/-- `LinearSync.push`. A top-level throw (team or label resolution outside the
loop) rejects the whole call (`.error`); configuration shortfalls return a
`status := "error"` result without persisting. -/
def push (env : Env) (cfg : LinearConfig) (mapping : RecM)
    (artifacts : List Artifact) : Except String PushOut :=
  if !isConfigured cfg then
    .ok { status := "error", message := some "Linear not configured" }
  else
    let teamIdE : Except String (Option String) :=
      match cfg.team_id with
      | some t => .ok (some t)
      | none => env.getFirstTeamId
    match teamIdE with
    | .error e => .error e
    | .ok teamIdO =>
      if !truthyS teamIdO then
        .ok { status := "error", message := some "No Linear team found" }
      else
        let teamId := teamIdO.getD ""
        let labRes : Except String (Option (List String) × List String) :=
          if truthyS cfg.push_label then
            match env.getLabelId teamId (cfg.push_label.getD "") with
            | .error e => .error e
            | .ok lid =>
                if truthyS lid then .ok (some [lid.getD ""], [])
                else .ok (none, ["push_label_not_found:" ++ cfg.push_label.getD ""])
          else .ok (none, [])
        match labRes with
        | .error e => .error e
        | .ok (labelIds, warns) =>
            .ok (pushRun env cfg teamId labelIds warns mapping artifacts)

/-- A character kept by `ReferencesStore.slugify`'s filter (`/[\w\- ]/`). -/
def isSlugKeep (c : Char) : Bool :=
  c.isAlpha || c.isDigit || c == '_' || c == '-' || c == ' '

/-- `replace(/\s+/g, "-")`: each maximal whitespace run becomes one dash. -/
def collapseToDash : List Char → List Char
  | [] => []
  | [c] => if isWsChar c then ['-'] else [c]
  | c :: c2 :: rest =>
      if isWsChar c then
        if isWsChar c2 then collapseToDash (c2 :: rest)
        else '-' :: collapseToDash (c2 :: rest)
      else c :: collapseToDash (c2 :: rest)

/-- `ReferencesStore.slugify`. -/
def slugify (name : String) : String :=
  let cleaned :=
    String.mk ((collapseToDash (trimChars (name.data.filter isSlugKeep))).map Char.toLower)
  if cleaned = "" then "untitled" else cleaned

/-- The filename candidate sequence tried by `uniqueFilename`:
`base+ext`, then `base-2+ext`, `base-3+ext`, … -/
def candName (base ext : String) : Nat → String
  | 0 => base ++ ext
  | k + 1 => base ++ "-" ++ natToStr (k + 2) ++ ext

/-- `fs.access` success: the path exists. -/
def fileTaken (files : Files) (filename : String) : Bool :=
  (lookupA files (artifactsDir ++ "/" ++ filename)).isSome

/-- The candidate loop of `uniqueFilename`, with enough fuel to cover every
existing file plus one (the source loops until a free name is found; the
freshness theorem below shows the fuel is never exhausted). -/
def uniqueGo (files : Files) (base ext : String) : Nat → Nat → String
  | 0, k => candName base ext k
  | fuel + 1, k =>
      if fileTaken files (candName base ext k) then uniqueGo files base ext fuel (k + 1)
      else candName base ext k

/-- `ReferencesStore.uniqueFilename`. -/
def uniqueFilename (files : Files) (base ext : String) : String :=
  uniqueGo files base ext (files.length + 1) 0

/-- Input of `ReferencesStore.createArtifact`. -/
structure CreateArtifactIn where
  name : String
  content : Option String := none
  kind : Option String := none
  mime_type : Option String := none
  tags : Option (List String) := none
  deriving Repr, DecidableEq

/-- `ReferencesStore.createArtifact`: fresh id, slugged unique `.md` filename,
optional file write, size from a post-write stat (0 when the file is absent),
manifest append. -/
def createArtifact (st : StoreState) (now : Nat) (inp : CreateArtifactIn) :
    StoreState × Artifact :=
  let id := "uuid-" ++ natToStr st.nextId
  let filename := uniqueFilename st.files (slugify inp.name) ".md"
  let path := artifactsDir ++ "/" ++ filename
  let files' :=
    match inp.content with
    | some c => setA st.files path c
    | none => st.files
  let sizeBytes :=
    match lookupA files' path with
    | some c => c.length
    | none => 0
  let artifact : Artifact :=
    { id := id, name := inp.name, filename := filename,
      kind := inp.kind.getD "note", mime_type := inp.mime_type.getD "text/markdown",
      size_bytes := sizeBytes, tags := inp.tags.getD [],
      created_at := some now, updated_at := some now }
  ({ st with files := files', artifacts := st.artifacts ++ [artifact],
             nextId := st.nextId + 1 }, artifact)

/-- Input of `ReferencesStore.updateArtifact`. -/
structure UpdateArtifactIn where
  name : Option String := none
  content : Option String := none
  kind : Option String := none
  mime_type : Option String := none
  tags : Option (List String) := none
  deriving Repr, DecidableEq

/-- Replace the first artifact with the id (the source's
`findIndex` + index assignment). -/
def replaceFirst : List Artifact → String → Artifact → List Artifact
  | [], _, _ => []
  | a :: rest, aid, na =>
      if a.id == aid then na :: rest else a :: replaceFirst rest aid na

/-- `ReferencesStore.updateArtifact`. -/
def updateArtifact (st : StoreState) (now : Nat) (artifactId : String)
    (inp : UpdateArtifactIn) : StoreState × Option Artifact :=
  match st.artifacts.find? (fun a => a.id == artifactId) with
  | none => (st, none)
  | some item =>
    let item1 := { item with
      name := inp.name.getD item.name,
      kind := inp.kind.getD item.kind,
      mime_type := inp.mime_type.getD item.mime_type,
      tags := inp.tags.getD item.tags }
    let (files', item2) :=
      match inp.content with
      | some c =>
          (setA st.files (artifactPath item1) c, { item1 with size_bytes := c.length })
      | none => (st.files, item1)
    let item3 := { item2 with updated_at := some now }
    ({ st with files := files',
               artifacts := replaceFirst st.artifacts artifactId item3 }, some item3)

/-- Input of `ReferencesStore.recordConflict` / `createConflictCopy`. -/
structure ConflictIn where
  artifact_id : String
  source : String
  note : String
  conflict_artifact_id : Option String := none
  deriving Repr, DecidableEq

/-- `ReferencesStore.recordConflict`: append-only conflict log. -/
def recordConflict (st : StoreState) (now : Nat) (inp : ConflictIn) : StoreState :=
  { st with conflicts := st.conflicts ++
      [{ artifact_id := inp.artifact_id, source := inp.source, note := inp.note,
         conflict_artifact_id := inp.conflict_artifact_id, created_at := some now }] }

/-- `ReferencesStore.createConflictCopy`: copy the original's file content into
a new artifact named `… (conflict)` tagged `conflict`, and record the conflict. -/
def createConflictCopy (st : StoreState) (now : Nat) (inp : ConflictIn) :
    StoreState × Option Artifact :=
  match storeGetArtifact st inp.artifact_id with
  | none => (st, none)
  | some original =>
    match lookupA st.files (artifactPath original) with
    | none => (st, none)
    | some content =>
      let (st1, conflict) := createArtifact st now
        { name := original.name ++ " (conflict)", content := some content,
          kind := some original.kind, mime_type := some original.mime_type,
          tags := some (original.tags ++ ["conflict"]) }
      let st2 := recordConflict st1 now
        { artifact_id := inp.artifact_id, source := inp.source, note := inp.note,
          conflict_artifact_id := some conflict.id }
      (st2, some conflict)

/-- The in-run mutable state of `LinearSync.pull`. -/
structure PullState where
  mapping : RecM
  store : StoreState
  updated : Nat := 0
  skipped : Nat := 0
  reconciled : Nat := 0
  skippedExistingTitle : Nat := 0
  updatedIssueIdentifiers : List String := []
  createdIssueIdentifiers : List String := []
  reconciledIssueIdentifiers : List String := []
  conflictArtifactIds : List String := []
  errors : List String := []

/-- One iteration of `LinearSync.pull`'s mapping loop, for one
`(artifactId, entry)` pair: fetch the issue, detect a genuine local edit
(creating a conflict copy unless disabled), then overwrite the local artifact
from the remote issue and refresh the entry. `ccc` is the
`LINEAR_PULL_CREATE_CONFLICTS !== "0"` flag. -/
def pullStep (env : Env) (ccc : Bool) (st : PullState)
    (pair : String × MappingEntry) : PullState :=
  let aid := pair.1
  let entry := pair.2
  if !truthyS entry.issue_id then { st with skipped := st.skipped + 1 }
  else
    match clientGetIssue env (entry.issue_id.getD "") with
    | .error e =>
        { st with errors := st.errors ++ [aid ++ ": " ++ e],
                  skipped := st.skipped + 1 }
    | .ok issue =>
      let issueDescription := issue.description
      let localArtifact := storeGetArtifact st.store aid
      let localContent :=
        match localArtifact with
        | some art => (lookupA st.store.files (artifactPath art)).getD ""
        | none => ""
      let lastSyncedAt := maxTs entry.last_pulled_at entry.last_pushed_at
      let localUpdatedAt := localArtifact.bind (fun a => a.updated_at)
      let st1 :=
        if localArtifact.isSome ∧ localContent ≠ issueDescription then
          match localUpdatedAt with
          | some u =>
            if (match lastSyncedAt with | none => true | some t => decide (u > t)) then
              if ccc then
                let pr := createConflictCopy st.store env.now
                  { artifact_id := aid, source := "linear",
                    note := "Local edits detected during pull; conflict copy created." }
                { st with store := pr.1,
                          conflictArtifactIds := st.conflictArtifactIds ++ [aid] }
              else st
            else st
          | none => st
        else st
      let ur := updateArtifact st1.store env.now aid
        { name := some issue.title, content := some issueDescription }
      match ur.2 with
      | some _ =>
          let entry' := { entry with
            issue_identifier := some issue.identifier,
            issue_team_name := issue.team_name, issue_team_id := issue.team_id,
            issue_project_name := issue.project_name,
            issue_project_id := issue.project_id,
            last_pulled_at := some env.now }
          { st1 with
            store := ur.1,
            mapping := setA st1.mapping aid entry',
            updated := st1.updated + 1,
            updatedIssueIdentifiers := st1.updatedIssueIdentifiers ++
              (if issue.identifier != "" then [issue.identifier] else []) }
      | none => { st1 with store := ur.1, skipped := st1.skipped + 1 }

/-- The local-by-fingerprint bucket built by the pull-create sub-step
(non-conflict local artifacts keyed by the fingerprint of their name and
description, in encounter order). -/
def localFpGroup (locals : List Artifact) (filesSnap : Files) (key : String) :
    List Artifact :=
  locals.filter (fun a =>
    !isConflictArtifact a &&
      fingerprint a.name (artifactDescriptionVia (lookupA filesSnap) a) == key)

/-- The local-by-title bucket of the pull-create sub-step. -/
def localTitleGroup (locals : List Artifact) (key : String) : List Artifact :=
  locals.filter (fun a => !isConflictArtifact a && titleKey a.name == key)

/-- Pull-create fold state: the pull state plus the mutable
`mappedArtifactIds` / `mappedIssueIds` sets. -/
structure PCState where
  ps : PullState
  mArt : List String
  mIss : List String

/-- One iteration of the pull-create issue loop. -/
def pullCreateStep (env : Env) (cfg : LinearConfig) (locals : List Artifact)
    (filesSnap : Files) (s : PCState) (issue : IssueNode) : PCState :=
  if !truthyS issue.id then s
  else if s.mIss.contains (issue.id.getD "") then s
  else if !hasLabel issue cfg.pull_label then s
  else
    let key := fingerprint (issue.title.getD "Untitled") (issue.description.getD "")
    let tkey := titleKey (issue.title.getD "Untitled")
    let localMatch := (localFpGroup locals filesSnap key).find?
      (fun a => !s.mArt.contains a.id)
    let localTitleMatch := (localTitleGroup locals tkey).find?
      (fun a => !s.mArt.contains a.id)
    match (match localMatch with | some m => some m | none => localTitleMatch) with
    | some matched =>
        { ps := { s.ps with
            mapping := setA s.ps.mapping matched.id
              (mappingEntryFromIssue issue env.now .pulled),
            reconciled := s.ps.reconciled + 1,
            reconciledIssueIdentifiers := s.ps.reconciledIssueIdentifiers ++
              (if truthyS issue.identifier then [issue.identifier.getD ""] else []) },
          mArt := s.mArt ++ [matched.id],
          mIss := s.mIss ++ [issue.id.getD ""] }
    | none =>
      if (localTitleGroup locals tkey).length > 0 then
        { s with ps := { s.ps with
            skippedExistingTitle := s.ps.skippedExistingTitle + 1 } }
      else
        let cr := createArtifact s.ps.store env.now
          { name := issue.title.getD "Untitled",
            content := some (issue.description.getD ""),
            kind := some "note", mime_type := some "text/markdown",
            tags := some ["linear", "imported"] }
        { ps := { s.ps with
            store := cr.1,
            mapping := setA s.ps.mapping cr.2.id
              (mappingEntryFromIssue issue env.now .pulled),
            createdIssueIdentifiers := s.ps.createdIssueIdentifiers ++
              (if truthyS issue.identifier then [issue.identifier.getD ""] else []) },
          mArt := s.mArt ++ [cr.2.id],
          mIss := s.mIss ++ [issue.id.getD ""] }

/-- The pull-create sub-step (`config.pull_create` enabled with a truthy
pull label configured): list labelled unmapped issues, reconciling each onto an
unmapped matching local artifact, skipping duplicate titles, else importing
it as a new local artifact. A listing failure is caught into one
`pull_create:`-prefixed error. -/
def pullCreatePhase (env : Env) (cfg : LinearConfig) (st : PullState) : PullState :=
  let locals := st.store.artifacts
  let filesSnap := st.store.files
  let mappedArtifactIds := st.mapping.map (fun p => p.1)
  let mappedIssueIds := seedUsed st.mapping
  match env.listIssues 50 with
  | .error e => { st with errors := st.errors ++ ["pull_create: " ++ e] }
  | .ok issues =>
      (issues.foldl (pullCreateStep env cfg locals filesSnap)
        { ps := st, mArt := mappedArtifactIds, mIss := mappedIssueIds }).ps

/-- The result object of `LinearSync.pull`, plus the `writeMapping` trace and
the final store state. -/
structure PullOut where
  status : String
  message : Option String := none
  updated : Nat := 0
  reconciled : Nat := 0
  skipped_existing_title : Nat := 0
  skipped : Nat := 0
  created_issue_identifiers : List String := []
  updated_issue_identifiers : List String := []
  reconciled_issue_identifiers : List String := []
  conflict_artifact_ids : List String := []
  errors : List String := []
  written : List RecM := []
  finalStore : StoreState

/-- `LinearSync.pull`. -/
def pull (env : Env) (cfg : LinearConfig) (ccc : Bool) (mapping : RecM)
    (store : StoreState) : PullOut :=
  if !isConfigured cfg then
    { status := "error", message := some "Linear not configured", finalStore := store }
  else
    let st0 : PullState := { mapping := mapping, store := store }
    let st1 := mapping.foldl (pullStep env ccc) st0
    let st2 :=
      if cfg.pull_create then
        if !truthyS cfg.pull_label then
          { st1 with errors := st1.errors ++
              ["pull_create: LINEAR_PULL_LABEL is required"] }
        else pullCreatePhase env cfg st1
      else st1
    { status := "ok",
      updated := st2.updated, reconciled := st2.reconciled,
      skipped_existing_title := st2.skippedExistingTitle, skipped := st2.skipped,
      created_issue_identifiers := st2.createdIssueIdentifiers,
      updated_issue_identifiers := st2.updatedIssueIdentifiers,
      reconciled_issue_identifiers := st2.reconciledIssueIdentifiers,
      conflict_artifact_ids := st2.conflictArtifactIds,
      errors := st2.errors, written := [st2.mapping], finalStore := st2.store }

/-! ### Normalization lemmas (claim C4) -/

/-- Unfolding of `replCrlf` on a cons cell that is not a CRLF pair. -/
theorem replCrlf_cons_eq (c : Char) (rest : List Char)
    (h : ∀ r, c = '\r' → rest = '\n' :: r → False) :
    replCrlf (c :: rest) = c :: replCrlf rest := by
  rw [replCrlf.eq_def]
  split
  · rename_i heq
    simp at heq
  · rename_i r heq
    exfalso
    cases heq
    exact h r rfl rfl
  · rename_i c' rest' _ heq
    cases heq
    rfl

/-- `replCrlf` of a nonempty list is nonempty. -/
theorem replCrlf_ne_nil (c : Char) (t : List Char) : replCrlf (c :: t) ≠ [] := by
  by_cases h : ∀ r, c = '\r' → t = '\n' :: r → False
  · rw [replCrlf_cons_eq c t h]
    simp
  · push_neg at h
    obtain ⟨r, hc, ht, _⟩ := h
    subst hc; subst ht
    simp [replCrlf]

/-- CRLF replacement never changes the final character. -/
theorem replCrlf_getLastq (l : List Char) : (replCrlf l).getLast? = l.getLast? := by
  induction l using replCrlf.induct with
  | case1 => rfl
  | case2 rest ih =>
    show ('\n' :: replCrlf rest).getLast? = ('\r' :: '\n' :: rest).getLast?
    cases rest with
    | nil => rfl
    | cons a t =>
      cases hr : replCrlf (a :: t) with
      | nil => exact absurd hr (replCrlf_ne_nil a t)
      | cons x xs =>
        rw [List.getLast?_cons_cons, ← hr, ih, List.getLast?_cons_cons,
          List.getLast?_cons_cons]
  | case3 c rest hne ih =>
    rw [replCrlf_cons_eq c rest hne]
    cases rest with
    | nil => rfl
    | cons a t =>
      cases hr : replCrlf (a :: t) with
      | nil => exact absurd hr (replCrlf_ne_nil a t)
      | cons x xs =>
        rw [List.getLast?_cons_cons, ← hr, ih, List.getLast?_cons_cons]

/-- CRLF replacement keeps the head when it is not whitespace. -/
theorem replCrlf_headq_not_ws (l : List Char)
    (h : ∀ c, l.head? = some c → isWsChar c = false) :
    (replCrlf l).head? = l.head? := by
  induction l using replCrlf.induct with
  | case1 => rfl
  | case2 rest ih =>
    have := h '\r' rfl
    simp [isWsChar] at this
  | case3 c rest hne ih =>
    rw [replCrlf_cons_eq c rest hne]
    rfl

/-- `trimChars` is a right-trim of a left-trim. -/
theorem trimChars_eq_rdrop (l : List Char) :
    trimChars l = List.rdropWhile isWsChar (l.dropWhile isWsChar) := rfl

/-- The trimmed list starts with a non-whitespace character. -/
theorem trimChars_headq_not_ws (l : List Char) (c : Char)
    (h : (trimChars l).head? = some c) : isWsChar c = false := by
  rw [trimChars_eq_rdrop] at h
  obtain ⟨t, ht⟩ := List.rdropWhile_prefix (l := l.dropWhile isWsChar) (p := isWsChar)
  cases hm : List.rdropWhile isWsChar (l.dropWhile isWsChar) with
  | nil => rw [hm] at h; simp at h
  | cons x xs =>
    rw [hm] at h ht
    simp only [List.head?_cons, Option.some.injEq] at h
    have hne : l.dropWhile isWsChar ≠ [] := by
      rw [← ht]; simp
    have hx := List.head_dropWhile_not isWsChar l hne
    have hq : (l.dropWhile isWsChar).head? = some x := by
      rw [← ht]; rfl
    have hq2 := List.head?_eq_head hne
    rw [hq] at hq2
    have hhead : (l.dropWhile isWsChar).head hne = x :=
      (Option.some.injEq _ _).mp hq2.symm
    rw [hhead] at hx
    rw [← h]
    exact hx

/-- The trimmed list ends with a non-whitespace character. -/
theorem trimChars_getLastq_not_ws (l : List Char) (c : Char)
    (h : (trimChars l).getLast? = some c) : isWsChar c = false := by
  rw [trimChars_eq_rdrop] at h
  have hne : List.rdropWhile isWsChar (l.dropWhile isWsChar) ≠ [] := by
    intro hnil
    rw [hnil] at h
    simp at h
  have hlast := List.rdropWhile_last_not (l := l.dropWhile isWsChar) (p := isWsChar) hne
  rw [List.getLast?_eq_getLast _ hne] at h
  simp at h
  rw [h] at hlast
  simpa using hlast

/-- The normalized text has no leading and no trailing whitespace. -/
theorem normalizeText_no_edge_ws (s : String) :
    (∀ c, (normalizeText s).data.head? = some c → isWsChar c = false) ∧
    (∀ c, (normalizeText s).data.getLast? = some c → isWsChar c = false) := by
  constructor
  · intro c hc
    have hdata : (normalizeText s).data = replCrlf (trimChars s.data) := rfl
    rw [hdata] at hc
    rw [replCrlf_headq_not_ws (trimChars s.data) (trimChars_headq_not_ws s.data)] at hc
    exact trimChars_headq_not_ws s.data c hc
  · intro c hc
    have hdata : (normalizeText s).data = replCrlf (trimChars s.data) := rfl
    rw [hdata, replCrlf_getLastq] at hc
    exact trimChars_getLastq_not_ws s.data c hc

/-- Claim C4, counterexample: the claimed collapsing of internal whitespace
runs does not happen — two titles differing only in the length of an internal
space run get different title-only fingerprints, so the claim as stated is
false. -/
theorem C4_counterexample : titleKey "a  b" ≠ titleKey "a b" := by decide

/-- Claim C4 as amended: fingerprint normalization trims surrounding
whitespace and replaces CRLF by LF (it does not collapse internal whitespace
runs); the content fingerprint is the lowercased normalized title, a `"::"`
separator and the normalized body; the title-only fingerprint is the
lowercased normalized title alone; title comparison is case-insensitive and
body comparison case-sensitive. -/
theorem C4_amended :
    (∀ t d : String,
      fingerprint t d = lowerStr (normalizeText t) ++ "::" ++ normalizeText d) ∧
    (∀ t : String, titleKey t = lowerStr (normalizeText t)) ∧
    (∀ s : String, ∀ c, (normalizeText s).data.head? = some c → isWsChar c = false) ∧
    (∀ s : String, ∀ c, (normalizeText s).data.getLast? = some c → isWsChar c = false) ∧
    normalizeText "a\r\nb" = "a\nb" ∧
    titleKey "Login Flow" = titleKey "LOGIN FLOW" ∧
    fingerprint "T" "Body" ≠ fingerprint "T" "body" ∧
    titleKey "a  b" ≠ titleKey "a b" := by
  refine ⟨fun t d => rfl, fun t => rfl, ?_, ?_, by decide, by decide, by decide, by decide⟩
  · exact fun s => (normalizeText_no_edge_ws s).1
  · exact fun s => (normalizeText_no_edge_ws s).2

/-- Claim C4 witness: the amended theorem applied at a concrete normalized
string whose head is the non-whitespace character `x`. -/
theorem C4_amended_witness :
    (normalizeText "  x\r\ny  ").data.head? = some 'x' ∧ isWsChar 'x' = false :=
  ⟨by decide, C4_amended.2.2.1 "  x\r\ny  " 'x' (by decide)⟩

/-! ### Concrete fixtures -/

/-- A concrete environment in which every remote call fails and every file
read misses; scenarios override the fields they exercise. -/
def envTrivial : Env :=
  { getFirstTeamId := .ok none,
    getLabelId := fun _ _ => .ok none,
    listIssues := fun _ => .ok [],
    updateIssue := fun _ _ _ => .error "net",
    createIssue := fun _ => .error "net",
    getIssue := fun _ => .error "net",
    fileUpload := fun _ _ _ => .error "net",
    putUpload := fun _ => .error "net",
    createAttachment := fun _ _ _ => .error "net",
    readFile := fun _ => none,
    readBin := fun _ => .error "io",
    stat := fun _ => none,
    now := 1000 }

/-- An empty local store. -/
def storeEmpty : StoreState :=
  { artifacts := [], conflicts := [], files := [], nextId := 0 }

/-! ### Claim C5 -/

/-- `pullStep` never touches the pull-create counters and identifier list. -/
theorem pullStep_pc_fields (env : Env) (ccc : Bool) (st : PullState)
    (p : String × MappingEntry) :
    (pullStep env ccc st p).reconciled = st.reconciled ∧
    (pullStep env ccc st p).skippedExistingTitle = st.skippedExistingTitle ∧
    (pullStep env ccc st p).createdIssueIdentifiers = st.createdIssueIdentifiers := by
  unfold pullStep
  dsimp only
  repeat' split
  all_goals exact ⟨rfl, rfl, rfl⟩

/-- The main pull loop never touches the pull-create counters and
identifier list. -/
theorem pullLoop_pc_fields (env : Env) (ccc : Bool) (l : RecM) (st : PullState) :
    (l.foldl (pullStep env ccc) st).reconciled = st.reconciled ∧
    (l.foldl (pullStep env ccc) st).skippedExistingTitle = st.skippedExistingTitle ∧
    (l.foldl (pullStep env ccc) st).createdIssueIdentifiers = st.createdIssueIdentifiers := by
  induction l generalizing st with
  | nil => exact ⟨rfl, rfl, rfl⟩
  | cons p rest ih =>
    obtain ⟨h1, h2, h3⟩ := pullStep_pc_fields env ccc st p
    obtain ⟨g1, g2, g3⟩ := ih (pullStep env ccc st p)
    exact ⟨g1.trans h1, g2.trans h2, g3.trans h3⟩

/-- The configuration used by claim C5's counterexample: credential present,
pull-create enabled, no import label. -/
def cfgC5 : LinearConfig := { api_key := some "k", pull_create := true }

/-- Claim C5, counterexample: with pull-create enabled and no import label,
`pull` does not fail as a whole — it completes with status `"ok"`, merely
appending `pull_create: LINEAR_PULL_LABEL is required` to the error list,
so the claim as stated is false. -/
theorem C5_counterexample :
    cfgC5.pull_create = true ∧ truthyS cfgC5.pull_label = false ∧
    isConfigured cfgC5 = true ∧
    (pull envTrivial cfgC5 true [] storeEmpty).status = "ok" ∧
    (pull envTrivial cfgC5 true [] storeEmpty).errors =
      ["pull_create: LINEAR_PULL_LABEL is required"] :=
  ⟨rfl, rfl, rfl, rfl, rfl⟩

/-- Claim C5 as amended: if pull-create is enabled but no import label is
configured (and a credential is present), the pull run still completes with
status `"ok"`; the misconfiguration only appends the error string
`pull_create: LINEAR_PULL_LABEL is required` after the main per-entry loop
(whose remote calls still happen), and the pull-create sub-step itself is
skipped (no reconciliation, no title-skips, no imports). -/
theorem C5_amended (env : Env) (cfg : LinearConfig) (ccc : Bool)
    (mapping : RecM) (store : StoreState)
    (hconf : isConfigured cfg = true) (hpc : cfg.pull_create = true)
    (hlab : truthyS cfg.pull_label = false) :
    (pull env cfg ccc mapping store).status = "ok" ∧
    (pull env cfg ccc mapping store).errors.getLast? =
      some "pull_create: LINEAR_PULL_LABEL is required" ∧
    (pull env cfg ccc mapping store).reconciled = 0 ∧
    (pull env cfg ccc mapping store).skipped_existing_title = 0 ∧
    (pull env cfg ccc mapping store).created_issue_identifiers = [] := by
  unfold pull
  rw [hconf, hpc, hlab]
  dsimp only
  obtain ⟨h1, h2, h3⟩ := pullLoop_pc_fields env ccc mapping
    { mapping := mapping, store := store }
  refine ⟨rfl, ?_, ?_, ?_, ?_⟩
  · exact List.getLast?_concat _
  · exact h1
  · exact h2
  · exact h3

/-- Claim C5 witness: the amended theorem applied to the concrete
misconfigured pull run. -/
theorem C5_amended_witness :
    isConfigured cfgC5 = true ∧
    ((pull envTrivial cfgC5 true [] storeEmpty).status = "ok" ∧
     (pull envTrivial cfgC5 true [] storeEmpty).errors.getLast? =
       some "pull_create: LINEAR_PULL_LABEL is required" ∧
     (pull envTrivial cfgC5 true [] storeEmpty).reconciled = 0 ∧
     (pull envTrivial cfgC5 true [] storeEmpty).skipped_existing_title = 0 ∧
     (pull envTrivial cfgC5 true [] storeEmpty).created_issue_identifiers = []) :=
  ⟨rfl, C5_amended envTrivial cfgC5 true [] storeEmpty rfl rfl rfl⟩

/-! ### Claim C10 -/

/-- `basename` of a directory-joined path with a slash-free final component
is that component. -/
theorem basename_path (dir f : String) (hf : ∀ c ∈ f.data, c ≠ '/') :
    basename (dir ++ "/" ++ f) = f := by
  unfold basename
  have hdata : (dir ++ "/" ++ f).data = (dir.data ++ ['/']) ++ f.data := by
    rw [String.data_append, String.data_append]
  rw [hdata, List.reverse_append, List.reverse_append]
  have hall : ∀ c ∈ f.data.reverse, (c != '/') = true := by
    intro c hc
    have := hf c (List.mem_reverse.mp hc)
    simpa using this
  rw [List.takeWhile_append_of_pos hall]
  simp

/-- Claim C10: for an artifact whose mime type does not start with `text/`,
the pushed description is the fixed placeholder `Binary artifact: ` followed
by the artifact's filename (the basename of its path), for every reader —
never the file's content; and for a text artifact whose file cannot be read,
the description is the empty string. -/
theorem C10_theorem (read : String → Option String) (a : Artifact) :
    (strStartsWith a.mime_type "text/" = false →
      artifactDescriptionVia read a = "Binary artifact: " ++ basename (artifactPath a) ∧
      ((∀ c ∈ a.filename.data, c ≠ '/') →
        artifactDescriptionVia read a = "Binary artifact: " ++ a.filename)) ∧
    (strStartsWith a.mime_type "text/" = true → read (artifactPath a) = none →
      artifactDescriptionVia read a = "") := by
  constructor
  · intro hb
    unfold artifactDescriptionVia
    rw [hb]
    refine ⟨rfl, fun hs => ?_⟩
    show "Binary artifact: " ++ basename (artifactPath a) = _
    rw [show artifactPath a = artifactsDir ++ "/" ++ a.filename from rfl,
      basename_path artifactsDir a.filename hs]
  · intro ht hr
    unfold artifactDescriptionVia
    rw [ht, hr]
    rfl

/-- A concrete binary (png) artifact. -/
def artC10 : Artifact :=
  { id := "b1", name := "Diagram", filename := "diagram.png", kind := "image",
    mime_type := "image/png", size_bytes := 4, tags := [],
    created_at := some 1, updated_at := some 1 }

/-- A concrete text (markdown) artifact. -/
def artC10md : Artifact :=
  { id := "b2", name := "Note", filename := "note.md", kind := "note",
    mime_type := "text/markdown", size_bytes := 4, tags := [],
    created_at := some 1, updated_at := some 1 }

/-- Claim C10 witness: the theorem applied to a concrete png artifact whose
file content is present but ignored, and to a concrete unreadable markdown
artifact. -/
theorem C10_witness :
    strStartsWith artC10.mime_type "text/" = false ∧
    artifactDescriptionVia (fun _ => some "JUNK") artC10 =
      "Binary artifact: diagram.png" ∧
    artifactDescriptionVia (fun _ => none) artC10md = "" :=
  ⟨by decide,
   ((C10_theorem (fun _ => some "JUNK") artC10).1 (by decide)).2 (by decide),
   (C10_theorem (fun _ => none) artC10md).2 (by decide) rfl⟩

/-! ### Push loop bookkeeping lemmas -/

/-- The attachment tail touches only the mapping entry, the error list and the
skip counter. -/
theorem pushAttach_fields (env : Env) (a : Artifact) (title : String) (st : PushState) :
    (pushAttach env a title st).skippedConflict = st.skippedConflict ∧
    (pushAttach env a title st).created = st.created ∧
    (pushAttach env a title st).updated = st.updated ∧
    (pushAttach env a title st).reused = st.reused ∧
    (pushAttach env a title st).used = st.used ∧
    (pushAttach env a title st).createdIssueIds = st.createdIssueIds ∧
    (pushAttach env a title st).createdIssueIdentifiers = st.createdIssueIdentifiers ∧
    (pushAttach env a title st).updatedIssueIdentifiers = st.updatedIssueIdentifiers ∧
    (pushAttach env a title st).reusedIssueIdentifiers = st.reusedIssueIdentifiers ∧
    (pushAttach env a title st).warnings = st.warnings := by
  unfold pushAttach pushFail
  repeat' first
    | split
    | dsimp only
  all_goals exact ⟨rfl, rfl, rfl, rfl, rfl, rfl, rfl, rfl, rfl, rfl⟩

/-- The mapped branch never touches the created/reused/conflict counters. -/
theorem pushMapped_fields (env : Env) (teamId : String) (a : Artifact)
    (title description : String) (entry : MappingEntry) (st : PushState) :
    (pushMapped env teamId a title description entry st).skippedConflict = st.skippedConflict ∧
    (pushMapped env teamId a title description entry st).created = st.created ∧
    (pushMapped env teamId a title description entry st).reused = st.reused ∧
    (pushMapped env teamId a title description entry st).warnings = st.warnings := by
  unfold pushMapped pushFail
  repeat' first
    | split
    | dsimp only
  all_goals first
    | exact ⟨rfl, rfl, rfl, rfl⟩
    | exact ⟨(pushAttach_fields _ _ _ _).1, (pushAttach_fields _ _ _ _).2.1,
        (pushAttach_fields _ _ _ _).2.2.2.1, (pushAttach_fields _ _ _ _).2.2.2.2.2.2.2.2.2⟩

/-- The unmapped branch never touches the updated/conflict counters. -/
theorem pushNoMapping_fields (env : Env) (cfg : LinearConfig) (teamId : String)
    (labelIds : Option (List String)) (remoteIssues : List IssueNode)
    (a : Artifact) (title description : String) (st : PushState) :
    (pushNoMapping env cfg teamId labelIds remoteIssues a title description st).skippedConflict
      = st.skippedConflict ∧
    (pushNoMapping env cfg teamId labelIds remoteIssues a title description st).updated
      = st.updated ∧
    (pushNoMapping env cfg teamId labelIds remoteIssues a title description st).warnings
      = st.warnings := by
  unfold pushNoMapping pushFail
  repeat' first
    | split
    | dsimp only
  all_goals first
    | exact ⟨rfl, rfl, rfl⟩
    | exact ⟨(pushAttach_fields _ _ _ _).1, (pushAttach_fields _ _ _ _).2.2.1,
        (pushAttach_fields _ _ _ _).2.2.2.2.2.2.2.2.2⟩

/-- One loop step adds one to the conflict-skip counter exactly on conflict
artifacts. -/
theorem pushStep_skippedConflict (env : Env) (cfg : LinearConfig) (teamId : String)
    (labelIds : Option (List String)) (remoteIssues : List IssueNode)
    (st : PushState) (a : Artifact) :
    (pushStep env cfg teamId labelIds remoteIssues st a).skippedConflict =
      st.skippedConflict + (if isConflictArtifact a then 1 else 0) := by
  unfold pushStep
  split
  · simp
  · rename_i h
    simp only [h, if_false]
    split
    · split
      · exact (pushMapped_fields _ _ _ _ _ _ _).1
      · exact (pushNoMapping_fields _ _ _ _ _ _ _ _ _).1
    · exact (pushNoMapping_fields _ _ _ _ _ _ _ _ _).1

/-- On a conflict artifact the loop body only bumps the conflict-skip counter;
the resulting state does not depend on the environment, so no remote call is
made, and the created/updated/reused tallies are untouched. -/
theorem pushStep_conflict_eq (env : Env) (cfg : LinearConfig) (teamId : String)
    (labelIds : Option (List String)) (remoteIssues : List IssueNode)
    (st : PushState) (a : Artifact) (h : isConflictArtifact a = true) :
    pushStep env cfg teamId labelIds remoteIssues st a =
      { st with skippedConflict := st.skippedConflict + 1 } := by
  unfold pushStep
  rw [h]
  rfl

/-- Over the whole loop the conflict-skip counter counts exactly the conflict
artifacts. -/
theorem pushLoop_skippedConflict (env : Env) (cfg : LinearConfig) (teamId : String)
    (labelIds : Option (List String)) (remoteIssues : List IssueNode)
    (as : List Artifact) (st : PushState) :
    (as.foldl (pushStep env cfg teamId labelIds remoteIssues) st).skippedConflict =
      st.skippedConflict + (as.filter (fun a => isConflictArtifact a)).length := by
  induction as generalizing st with
  | nil => rfl
  | cons a rest ih =>
    show (rest.foldl _ (pushStep env cfg teamId labelIds remoteIssues st a)).skippedConflict = _
    rw [ih, pushStep_skippedConflict]
    by_cases hc : isConflictArtifact a
    · simp [hc, List.filter_cons]
      omega
    · simp [hc, List.filter_cons]

/-- A push call that returns an `"ok"` result is the loop's result for some
resolved team id, label ids and warnings. -/
theorem push_ok_inv (env : Env) (cfg : LinearConfig) (mapping : RecM)
    (artifacts : List Artifact) (r : PushOut)
    (h : push env cfg mapping artifacts = .ok r) (hst : r.status = "ok") :
    ∃ teamId labelIds warns,
      r = pushRun env cfg teamId labelIds warns mapping artifacts := by
  unfold push at h
  by_cases hck : (!isConfigured cfg) = true
  · rw [if_pos hck] at h
    cases h
    simp at hst
  · rw [if_neg hck] at h
    dsimp only at h
    have main : ∀ (tO : Option String),
        (if !truthyS tO then
          (.ok { status := "error", message := some "No Linear team found" } :
            Except String PushOut)
         else
          let teamId := tO.getD ""
          let labRes : Except String (Option (List String) × List String) :=
            if truthyS cfg.push_label then
              match env.getLabelId teamId (cfg.push_label.getD "") with
              | .error e => .error e
              | .ok lid =>
                  if truthyS lid then .ok (some [lid.getD ""], [])
                  else .ok (none, ["push_label_not_found:" ++ cfg.push_label.getD ""])
            else .ok (none, [])
          match labRes with
          | .error e => .error e
          | .ok (labelIds, warns) =>
              .ok (pushRun env cfg teamId labelIds warns mapping artifacts)) = .ok r →
        ∃ teamId labelIds warns,
          r = pushRun env cfg teamId labelIds warns mapping artifacts := by
      intro tO h
      by_cases htid : (!truthyS tO) = true
      · rw [if_pos htid] at h
        cases h
        simp at hst
      · rw [if_neg htid] at h
        dsimp only at h
        by_cases hPL : truthyS cfg.push_label = true
        · rw [if_pos hPL] at h
          rcases hL : env.getLabelId (tO.getD "") (cfg.push_label.getD "") with e | lid
          · rw [hL] at h
            cases h
          · rw [hL] at h
            dsimp only at h
            by_cases hlid : truthyS lid = true
            · rw [if_pos hlid] at h
              dsimp only at h
              cases h
              exact ⟨_, _, _, rfl⟩
            · rw [if_neg hlid] at h
              dsimp only at h
              cases h
              exact ⟨_, _, _, rfl⟩
        · rw [if_neg hPL] at h
          dsimp only at h
          cases h
          exact ⟨_, _, _, rfl⟩
    rcases hCT : cfg.team_id with _ | t
    · rw [hCT] at h
      dsimp only at h
      rcases hG : env.getFirstTeamId with e | tO
      · rw [hG] at h
        cases h
      · rw [hG] at h
        exact main tO h
    · rw [hCT] at h
      dsimp only at h
      exact main (some t) h

/-! ### Claim C3 -/

/-- Claim C3: a conflict artifact (conflict tag, case-insensitive, or a
`(conflict)` name) only bumps the skipped-conflict counter — the loop state is
otherwise unchanged and independent of the environment, so no remote call is
made and the artifact is never counted in created/updated/reused — and on any
push run that reports `"ok"`, the skipped-conflict count is exactly the number
of conflict artifacts. -/
theorem C3_theorem :
    (∀ (env : Env) (cfg : LinearConfig) (teamId : String)
       (labelIds : Option (List String)) (remoteIssues : List IssueNode)
       (st : PushState) (a : Artifact), isConflictArtifact a = true →
        pushStep env cfg teamId labelIds remoteIssues st a =
          { st with skippedConflict := st.skippedConflict + 1 }) ∧
    (∀ (env : Env) (cfg : LinearConfig) (mapping : RecM)
       (artifacts : List Artifact) (r : PushOut),
        push env cfg mapping artifacts = .ok r → r.status = "ok" →
        r.skipped_conflict = (artifacts.filter (fun a => isConflictArtifact a)).length) := by
  constructor
  · exact fun env cfg teamId labelIds remoteIssues st a h =>
      pushStep_conflict_eq env cfg teamId labelIds remoteIssues st a h
  · intro env cfg mapping artifacts r h hst
    obtain ⟨tid, lids, warns, rfl⟩ := push_ok_inv env cfg mapping artifacts r h hst
    unfold pushRun
    simpa using pushLoop_skippedConflict env cfg tid lids
      (match env.listIssues 100 with | .ok l => l | .error _ => []) artifacts
      { mapping := mapping, used := seedUsed mapping, warnings := warns }

/-- A concrete configured push setup (credential and team id present, no push
label). -/
def cfgPush : LinearConfig := { api_key := some "k", team_id := some "team-1" }

/-- A concrete conflict-tagged artifact (uppercase tag, exercising the
case-insensitive check). -/
def artConflict : Artifact :=
  { id := "c1", name := "Notes", filename := "notes.md", kind := "note",
    mime_type := "text/markdown", size_bytes := 0, tags := ["Conflict"],
    created_at := some 1, updated_at := some 1 }

/-- A concrete loop state for the witness. -/
def stW : PushState := { mapping := [], used := [] }

/-- Claim C3 witness: the theorem applied to a concrete conflict-tagged
artifact, at loop-step level and over a whole concrete run. -/
theorem C3_witness :
    isConflictArtifact artConflict = true ∧
    pushStep envTrivial cfgPush "team-1" none [] stW artConflict =
      { stW with skippedConflict := stW.skippedConflict + 1 } ∧
    (pushRun envTrivial cfgPush "team-1" none [] [] [artConflict]).skipped_conflict =
      ([artConflict].filter (fun a => isConflictArtifact a)).length :=
  ⟨by decide,
   C3_theorem.1 envTrivial cfgPush "team-1" none [] stW artConflict (by decide),
   C3_theorem.2 envTrivial cfgPush [] [artConflict] _ rfl rfl⟩

/-! ### Claim C1 -/

/-- Reading back the key just written. -/
theorem lookupA_setA_self {β : Type} (m : List (String × β)) (k : String) (v : β) :
    lookupA (setA m k v) k = some v := by
  induction m with
  | nil => simp [setA, lookupA]
  | cons p rest ih =>
    obtain ⟨pk, pv⟩ := p
    by_cases h : (pk == k) = true
    · simp [setA, h, lookupA, List.find?_cons]
    · simp only [setA, if_neg h]
      simp [lookupA, List.find?_cons, h] at ih ⊢
      exact ih

/-- Writing one key leaves the other keys' bindings unchanged. -/
theorem lookupA_setA_ne {β : Type} (m : List (String × β)) (k k' : String) (v : β)
    (h : k ≠ k') : lookupA (setA m k v) k' = lookupA m k' := by
  have hkk : (k == k') = false := by simpa using h
  induction m with
  | nil => simp [setA, lookupA, List.find?_cons, hkk]
  | cons p rest ih =>
    obtain ⟨pk, pv⟩ := p
    by_cases hp : (pk == k) = true
    · have hpk : pk = k := by simpa using hp
      subst hpk
      simp [setA, lookupA, List.find?_cons, hkk]
    · simp only [setA, if_neg hp]
      by_cases hq : (pk == k') = true
      · simp [lookupA, List.find?_cons, hq]
      · simp only [lookupA, List.find?_cons] at ih ⊢
        simp [hq]
        simpa using ih

/-- A found reuse candidate is unclaimed (truthy id outside the used set). -/
theorem findCandidate_unclaimed (issues : List IssueNode) (pl : Option String)
    (used : List String) (k tk : String) (c : IssueNode)
    (h : findCandidate issues pl used k tk = some c) : unclaimed used c = true := by
  unfold findCandidate at h
  split at h
  · rename_i c0 hfp
    cases h
    exact List.find?_some hfp
  · exact List.find?_some h

/-- The attachment chain never changes the entry's issue id. -/
theorem attachmentChain_issue_id (env : Env) (a : Artifact) (title issueId : String)
    (cur cur' : MappingEntry) (s : StatInfo)
    (h : attachmentChain env a title issueId cur s = .ok cur') :
    cur'.issue_id = cur.issue_id := by
  unfold attachmentChain at h
  repeat' split at h
  all_goals cases h
  all_goals rfl

/-- The attachment tail keeps the mapping entry's issue id. -/
theorem pushAttach_entry (env : Env) (a : Artifact) (title : String) (st : PushState)
    (e : MappingEntry) (hl : lookupA st.mapping a.id = some e) :
    ∃ e', lookupA (pushAttach env a title st).mapping a.id = some e' ∧
      e'.issue_id = e.issue_id := by
  unfold pushAttach
  split
  · rename_i heq
    rw [hl] at heq
    cases heq
  · rename_i cur heq
    rw [hl] at heq
    cases heq
    by_cases ht : (!truthyS e.issue_id) = true
    · rw [if_pos ht]
      exact ⟨e, hl, rfl⟩
    · rw [if_neg ht]
      dsimp only
      split
      · exact ⟨e, hl, rfl⟩
      · rename_i cur' hm
        refine ⟨{ cur' with last_pushed_at := some env.now }, lookupA_setA_self _ _ _, ?_⟩
        show cur'.issue_id = e.issue_id
        split at hm
        · cases hm
          rfl
        · rename_i s hs
          split at hm
          · exact attachmentChain_issue_id env a title _ e cur' s hm
          · cases hm
            rfl

/-- The JS guard `entry?.issue_id`: an entry exists carrying a truthy issue id. -/
def mappedTruthy (m : RecM) (aid : String) : Bool :=
  match lookupA m aid with
  | some e => truthyS e.issue_id
  | none => false

/-- One loop step on a non-conflict artifact without a usable Mapping Entry,
when the fingerprint-then-title search finds an unclaimed candidate: the step
records a Mapping Entry pointing at that issue, marks it claimed, counts one
reuse and creates nothing. -/
theorem pushStep_reuse (env : Env) (cfg : LinearConfig) (teamId : String)
    (labelIds : Option (List String)) (remoteIssues : List IssueNode)
    (st : PushState) (a : Artifact) (c : IssueNode)
    (hnc : isConflictArtifact a = false)
    (hm : mappedTruthy st.mapping a.id = false)
    (hc : findCandidate remoteIssues cfg.push_label st.used
            (fingerprint (if a.name = "" then "Untitled" else a.name)
              (artifactDescriptionVia env.readFile a))
            (titleKey (if a.name = "" then "Untitled" else a.name)) = some c) :
    (∃ e', lookupA (pushStep env cfg teamId labelIds remoteIssues st a).mapping a.id
        = some e' ∧ e'.issue_id = c.id) ∧
    unclaimed st.used c = true ∧
    (c.id.getD "") ∈ (pushStep env cfg teamId labelIds remoteIssues st a).used ∧
    (pushStep env cfg teamId labelIds remoteIssues st a).reused = st.reused + 1 ∧
    (pushStep env cfg teamId labelIds remoteIssues st a).created = st.created := by
  have huc : unclaimed st.used c = true := findCandidate_unclaimed _ _ _ _ _ _ hc
  have hcid : truthyS c.id = true := by
    unfold unclaimed at huc
    exact ((Bool.and_eq_true _ _).mp huc).1
  have hgoal : ∀ st1 : PushState,
      st1 = pushNoMapping env cfg teamId labelIds remoteIssues a
        (if a.name = "" then "Untitled" else a.name)
        (artifactDescriptionVia env.readFile a) st →
      (∃ e', lookupA st1.mapping a.id = some e' ∧ e'.issue_id = c.id) ∧
      unclaimed st.used c = true ∧
      (c.id.getD "") ∈ st1.used ∧
      st1.reused = st.reused + 1 ∧
      st1.created = st.created := by
    intro st1 hst1
    unfold pushNoMapping at hst1
    dsimp only at hst1
    rw [hc] at hst1
    split at hst1
    · rename_i c' heq
      cases heq
      rw [if_pos hcid] at hst1
      subst hst1
      obtain ⟨e', he', hid⟩ := pushAttach_entry env a
        (if a.name = "" then "Untitled" else a.name)
        { st with
          mapping := setA st.mapping a.id (mappingEntryFromIssue c env.now .pushed),
          used := st.used ++ [c.id.getD ""],
          reused := st.reused + 1,
          reusedIssueIdentifiers := st.reusedIssueIdentifiers ++
            (if truthyS c.identifier then [c.identifier.getD ""] else []) }
        (mappingEntryFromIssue c env.now .pushed) (lookupA_setA_self _ _ _)
      refine ⟨⟨e', he', ?_⟩, huc, ?_, ?_, ?_⟩
      · rw [hid]
        rfl
      · rw [(pushAttach_fields _ _ _ _).2.2.2.2.1]
        exact List.mem_append_right _ (List.mem_singleton.mpr rfl)
      · rw [(pushAttach_fields _ _ _ _).2.2.2.1]
      · rw [(pushAttach_fields _ _ _ _).2.1]
    · rename_i heq
      cases heq
  unfold pushStep
  rw [if_neg (by simp [hnc])]
  dsimp only
  split
  · rename_i entry heq
    unfold mappedTruthy at hm
    rw [heq] at hm
    have hm2 : truthyS entry.issue_id = false := hm
    rw [if_neg (by simp [hm2])]
    exact hgoal _ rfl
  · exact hgoal _ rfl

/-- The remote issue of the reuse scenario (labelled, title and body equal to
the artifact's). -/
def issue1 : IssueNode :=
  { id := some "iss-1", identifier := some "ENG-1", title := some "Login Flow",
    description := some "draft notes", labels := [some "reffy"] }

/-- The local artifact of the reuse scenario. -/
def art1 : Artifact :=
  { id := "a1", name := "Login Flow", filename := "login-flow.md",
    kind := "note", mime_type := "text/markdown", size_bytes := 11,
    tags := [], created_at := some 10, updated_at := some 10 }

/-- The reuse-scenario environment: one labelled remote issue, the artifact's
file readable with matching content. -/
def envC1 : Env :=
  { envTrivial with
    getLabelId := fun _ _ => .ok (some "lbl-1"),
    listIssues := fun _ => .ok [issue1],
    readFile := fun p => if p = artifactPath art1 then some "draft notes" else none }

/-- The reuse-scenario configuration (push label `reffy`). -/
def cfgC1 : LinearConfig :=
  { api_key := some "k", team_id := some "team-1", push_label := some "reffy" }

/-- Claim C1: for an artifact with no usable Mapping Entry, push searches the
unclaimed labelled remote issues by content fingerprint first and only then by
title (each bucket in encounter order, first unclaimed match); a found
candidate is reused — a Mapping Entry pointing at it is recorded, the issue is
marked claimed, nothing is created — and in the concrete one-issue scenario
the run reports reused = 1, created = 0. -/
theorem C1_theorem :
    (∀ (issues : List IssueNode) (pl : Option String) (used : List String)
       (k tk : String) (c : IssueNode),
        (fpGroup issues pl k).find? (unclaimed used) = some c →
        findCandidate issues pl used k tk = some c) ∧
    (∀ (issues : List IssueNode) (pl : Option String) (used : List String)
       (k tk : String),
        (fpGroup issues pl k).find? (unclaimed used) = none →
        findCandidate issues pl used k tk =
          (titleGroup issues pl tk).find? (unclaimed used)) ∧
    (∀ (env : Env) (cfg : LinearConfig) (teamId : String)
       (labelIds : Option (List String)) (remoteIssues : List IssueNode)
       (st : PushState) (a : Artifact) (c : IssueNode),
        isConflictArtifact a = false →
        mappedTruthy st.mapping a.id = false →
        findCandidate remoteIssues cfg.push_label st.used
            (fingerprint (if a.name = "" then "Untitled" else a.name)
              (artifactDescriptionVia env.readFile a))
            (titleKey (if a.name = "" then "Untitled" else a.name)) = some c →
        (∃ e', lookupA (pushStep env cfg teamId labelIds remoteIssues st a).mapping a.id
            = some e' ∧ e'.issue_id = c.id) ∧
        unclaimed st.used c = true ∧
        (c.id.getD "") ∈ (pushStep env cfg teamId labelIds remoteIssues st a).used ∧
        (pushStep env cfg teamId labelIds remoteIssues st a).reused = st.reused + 1 ∧
        (pushStep env cfg teamId labelIds remoteIssues st a).created = st.created) ∧
    (push envC1 cfgC1 [] [art1]).toOption.map (fun r => (r.status, r.reused, r.created))
      = some ("ok", 1, 0) := by
  refine ⟨?_, ?_, ?_, rfl⟩
  · intro issues pl used k tk c h
    unfold findCandidate
    rw [h]
  · intro issues pl used k tk h
    unfold findCandidate
    rw [h]
  · exact fun env cfg teamId labelIds remoteIssues st a c hnc hm hc =>
      pushStep_reuse env cfg teamId labelIds remoteIssues st a c hnc hm hc

/-- Claim C1 witness: the theorem's step-level part applied to the concrete
reuse scenario. -/
theorem C1_witness :
    isConflictArtifact art1 = false ∧
    mappedTruthy [] art1.id = false ∧
    (∃ e', lookupA (pushStep envC1 cfgC1 "team-1" (some ["lbl-1"]) [issue1]
        { mapping := [], used := [] } art1).mapping art1.id = some e' ∧
      e'.issue_id = issue1.id) ∧
    (pushStep envC1 cfgC1 "team-1" (some ["lbl-1"]) [issue1]
        { mapping := [], used := [] } art1).reused = 0 + 1 :=
  ⟨by decide, rfl,
   (C1_theorem.2.2.1 envC1 cfgC1 "team-1" (some ["lbl-1"]) [issue1]
      { mapping := [], used := [] } art1 issue1 (by decide) rfl (by decide)).1,
   (C1_theorem.2.2.1 envC1 cfgC1 "team-1" (some ["lbl-1"]) [issue1]
      { mapping := [], used := [] } art1 issue1 (by decide) rfl (by decide)).2.2.2.1⟩

/-! ### Claim C8 -/

/-- A key of the written map is an old key or the written key. -/
theorem mem_keys_setA {β : Type} (m : List (String × β)) (k : String) (v : β)
    (x : String) (h : x ∈ (setA m k v).map Prod.fst) :
    x ∈ m.map Prod.fst ∨ x = k := by
  induction m with
  | nil =>
    simp [setA] at h
    exact Or.inr h
  | cons p rest ih =>
    by_cases hp : (p.1 == k) = true
    · simp only [setA, if_pos hp] at h
      simp at h
      rcases h with h | h
      · exact Or.inr h
      · exact Or.inl (by simp; exact Or.inr h)
    · simp only [setA, if_neg hp] at h
      simp at h
      rcases h with h | h
      · exact Or.inl (by simp [h])
      · rcases ih (by simpa using h) with h2 | h2
        · exact Or.inl (by simp at h2 ⊢; exact Or.inr h2)
        · exact Or.inr h2

/-- Writing a binding preserves key uniqueness. -/
theorem setA_keys_nodup {β : Type} (m : List (String × β)) (k : String) (v : β)
    (h : (m.map Prod.fst).Nodup) : ((setA m k v).map Prod.fst).Nodup := by
  induction m with
  | nil => simp [setA]
  | cons p rest ih =>
    simp only [List.map_cons, List.nodup_cons] at h
    by_cases hp : (p.1 == k) = true
    · have hpk : p.1 = k := by simpa using hp
      simp only [setA, if_pos hp, List.map_cons, List.nodup_cons]
      exact ⟨by rw [← hpk]; exact h.1, h.2⟩
    · simp only [setA, if_neg hp, List.map_cons, List.nodup_cons]
      refine ⟨?_, ih h.2⟩
      intro hmem
      rcases mem_keys_setA rest k v p.1 hmem with h2 | h2
      · exact h.1 h2
      · exact absurd (by simp [h2]) hp

/-- The attachment tail preserves mapping key uniqueness. -/
theorem pushAttach_keys_nodup (env : Env) (a : Artifact) (title : String)
    (st : PushState) (h : (st.mapping.map Prod.fst).Nodup) :
    ((pushAttach env a title st).mapping.map Prod.fst).Nodup := by
  unfold pushAttach pushFail
  repeat' first
    | split
    | dsimp only
  all_goals first
    | exact h
    | exact setA_keys_nodup _ _ _ h

/-- The mapped branch preserves mapping key uniqueness. -/
theorem pushMapped_keys_nodup (env : Env) (teamId : String) (a : Artifact)
    (title description : String) (entry : MappingEntry) (st : PushState)
    (h : (st.mapping.map Prod.fst).Nodup) :
    ((pushMapped env teamId a title description entry st).mapping.map Prod.fst).Nodup := by
  unfold pushMapped pushFail
  repeat' first
    | split
    | dsimp only
  all_goals first
    | exact h
    | exact pushAttach_keys_nodup _ _ _ _ (setA_keys_nodup _ _ _ h)

/-- The unmapped branch preserves mapping key uniqueness. -/
theorem pushNoMapping_keys_nodup (env : Env) (cfg : LinearConfig) (teamId : String)
    (labelIds : Option (List String)) (remoteIssues : List IssueNode)
    (a : Artifact) (title description : String) (st : PushState)
    (h : (st.mapping.map Prod.fst).Nodup) :
    ((pushNoMapping env cfg teamId labelIds remoteIssues a title description st).mapping.map
      Prod.fst).Nodup := by
  unfold pushNoMapping pushFail
  repeat' first
    | split
    | dsimp only
  all_goals first
    | exact h
    | exact pushAttach_keys_nodup _ _ _ _ (setA_keys_nodup _ _ _ h)

/-- One loop step preserves mapping key uniqueness. -/
theorem pushStep_keys_nodup (env : Env) (cfg : LinearConfig) (teamId : String)
    (labelIds : Option (List String)) (remoteIssues : List IssueNode)
    (st : PushState) (a : Artifact) (h : (st.mapping.map Prod.fst).Nodup) :
    ((pushStep env cfg teamId labelIds remoteIssues st a).mapping.map Prod.fst).Nodup := by
  unfold pushStep
  repeat' first
    | split
    | dsimp only
  all_goals first
    | exact h
    | exact pushMapped_keys_nodup _ _ _ _ _ _ _ h
    | exact pushNoMapping_keys_nodup _ _ _ _ _ _ _ _ _ h

/-- The attachment tail never touches the used set. -/
theorem pushAttach_used_eq (env : Env) (a : Artifact) (title : String) (st : PushState) :
    (pushAttach env a title st).used = st.used :=
  (pushAttach_fields env a title st).2.2.2.2.1

/-- The mapped branch never touches the used set. -/
theorem pushMapped_used_eq (env : Env) (teamId : String) (a : Artifact)
    (title description : String) (entry : MappingEntry) (st : PushState) :
    (pushMapped env teamId a title description entry st).used = st.used := by
  unfold pushMapped pushFail
  repeat' first
    | split
    | dsimp only
  all_goals first
    | rfl
    | exact pushAttach_used_eq _ _ _ _

/-- The unmapped branch only grows the used set. -/
theorem pushNoMapping_used_mono (env : Env) (cfg : LinearConfig) (teamId : String)
    (labelIds : Option (List String)) (remoteIssues : List IssueNode)
    (a : Artifact) (title description : String) (st : PushState) :
    st.used ⊆ (pushNoMapping env cfg teamId labelIds remoteIssues a title description st).used := by
  unfold pushNoMapping pushFail
  repeat' first
    | split
    | dsimp only
  all_goals first
    | exact fun x hx => hx
    | (rw [pushAttach_used_eq]; exact List.subset_append_left _ _)

/-- One loop step only grows the used set. -/
theorem pushStep_used_mono (env : Env) (cfg : LinearConfig) (teamId : String)
    (labelIds : Option (List String)) (remoteIssues : List IssueNode)
    (st : PushState) (a : Artifact) :
    st.used ⊆ (pushStep env cfg teamId labelIds remoteIssues st a).used := by
  unfold pushStep
  repeat' first
    | split
    | dsimp only
  all_goals first
    | exact fun x hx => hx
    | (rw [pushMapped_used_eq]; exact fun x hx => hx)
    | exact pushNoMapping_used_mono _ _ _ _ _ _ _ _ _

/-- The loop preserves mapping key uniqueness. -/
theorem pushLoop_keys_nodup (env : Env) (cfg : LinearConfig) (teamId : String)
    (labelIds : Option (List String)) (remoteIssues : List IssueNode)
    (as : List Artifact) (st : PushState) (h : (st.mapping.map Prod.fst).Nodup) :
    (((as.foldl (pushStep env cfg teamId labelIds remoteIssues) st)).mapping.map
      Prod.fst).Nodup := by
  induction as generalizing st with
  | nil => exact h
  | cons a rest ih => exact ih _ (pushStep_keys_nodup _ _ _ _ _ _ _ h)

/-- The loop only grows the used set. -/
theorem pushLoop_used_mono (env : Env) (cfg : LinearConfig) (teamId : String)
    (labelIds : Option (List String)) (remoteIssues : List IssueNode)
    (as : List Artifact) (st : PushState) :
    st.used ⊆ (as.foldl (pushStep env cfg teamId labelIds remoteIssues) st).used := by
  induction as generalizing st with
  | nil => exact fun x hx => hx
  | cons a rest ih =>
    exact fun x hx => ih _ (pushStep_used_mono _ _ _ _ _ _ _ hx)

/-- Claim C8: loop steps keep at most one Mapping Entry per artifact id (key
uniqueness is preserved, and the persisted mapping of an ok run has unique
keys when the loaded one did); a remote issue id already in the in-run used
set is never selected as a reuse candidate (candidates are unclaimed), and
the used set only grows during the run, so an id claimed (seeded, reused or
created) stays claimed for the rest of the run. -/
theorem C8_theorem :
    (∀ (env : Env) (cfg : LinearConfig) (teamId : String)
       (labelIds : Option (List String)) (remoteIssues : List IssueNode)
       (st : PushState) (a : Artifact),
        (st.mapping.map Prod.fst).Nodup →
        ((pushStep env cfg teamId labelIds remoteIssues st a).mapping.map Prod.fst).Nodup) ∧
    (∀ (env : Env) (cfg : LinearConfig) (mapping : RecM)
       (artifacts : List Artifact) (r : PushOut),
        push env cfg mapping artifacts = .ok r → r.status = "ok" →
        (mapping.map Prod.fst).Nodup →
        ∀ m' ∈ r.written, (m'.map Prod.fst).Nodup) ∧
    (∀ (issues : List IssueNode) (pl : Option String) (used : List String)
       (k tk : String) (c : IssueNode),
        findCandidate issues pl used k tk = some c →
        used.contains (c.id.getD "") = false) ∧
    (∀ (env : Env) (cfg : LinearConfig) (teamId : String)
       (labelIds : Option (List String)) (remoteIssues : List IssueNode)
       (st : PushState) (a : Artifact),
        st.used ⊆ (pushStep env cfg teamId labelIds remoteIssues st a).used) := by
  refine ⟨?_, ?_, ?_, ?_⟩
  · exact fun env cfg teamId labelIds remoteIssues st a h =>
      pushStep_keys_nodup env cfg teamId labelIds remoteIssues st a h
  · intro env cfg mapping artifacts r h hst hnd m' hm'
    obtain ⟨tid, lids, warns, rfl⟩ := push_ok_inv env cfg mapping artifacts r h hst
    unfold pushRun at hm'
    simp only [List.mem_singleton] at hm'
    subst hm'
    exact pushLoop_keys_nodup env cfg tid lids _ artifacts
      { mapping := mapping, used := seedUsed mapping, warnings := warns } hnd
  · intro issues pl used k tk c h
    have := findCandidate_unclaimed issues pl used k tk c h
    unfold unclaimed at this
    have h2 := ((Bool.and_eq_true _ _).mp this).2
    simpa using h2
  · exact fun env cfg teamId labelIds remoteIssues st a =>
      pushStep_used_mono env cfg teamId labelIds remoteIssues st a

/-- A mapping entry claiming issue `iss-9`. -/
def entryC8 : MappingEntry := { issue_id := some "iss-9" }

/-- Claim C8 witness: the theorem applied to a concrete one-entry mapping, a
concrete step, and a concrete used set containing a claimed id. -/
theorem C8_witness :
    (([("a1", entryC8)] : RecM).map Prod.fst).Nodup ∧
    (((pushStep envTrivial cfgPush "team-1" none []
        { mapping := [("a1", entryC8)], used := ["iss-9"] } art1).mapping.map
      Prod.fst).Nodup) ∧
    (["iss-9"] : List String).contains (issue1.id.getD "") = false ∧
    (["iss-9"] : List String) ⊆ (pushStep envTrivial cfgPush "team-1" none []
        { mapping := [("a1", entryC8)], used := ["iss-9"] } art1).used :=
  ⟨by simp,
   C8_theorem.1 envTrivial cfgPush "team-1" none []
     { mapping := [("a1", entryC8)], used := ["iss-9"] } art1 (by simp),
   C8_theorem.2.2.1 [issue1] (some "reffy") ["iss-9"]
     (fingerprint "Login Flow" "draft notes") (titleKey "Login Flow") issue1 (by decide),
   C8_theorem.2.2.2 envTrivial cfgPush "team-1" none []
     { mapping := [("a1", entryC8)], used := ["iss-9"] } art1⟩

/-! ### Claim C9 -/

/-- The loop body never calls `listIssues`. -/
theorem pushStep_listIssues_irrelevant (env : Env) (g : Nat → Except String (List IssueNode))
    (cfg : LinearConfig) (teamId : String) (labelIds : Option (List String))
    (remoteIssues : List IssueNode) (st : PushState) (a : Artifact) :
    pushStep { env with listIssues := g } cfg teamId labelIds remoteIssues st a =
      pushStep env cfg teamId labelIds remoteIssues st a := by
  cases env
  rfl

/-- The attachment tail only writes the current artifact's mapping key. -/
theorem pushAttach_mapping_other (env : Env) (a : Artifact) (title : String)
    (st : PushState) (x : String) (hx : x ≠ a.id) :
    lookupA (pushAttach env a title st).mapping x = lookupA st.mapping x := by
  unfold pushAttach pushFail
  repeat' first
    | split
    | dsimp only
  all_goals first
    | rfl
    | exact lookupA_setA_ne _ _ _ _ (fun h => hx h.symm)

/-- The mapped branch only writes the current artifact's mapping key. -/
theorem pushMapped_mapping_other (env : Env) (teamId : String) (a : Artifact)
    (title description : String) (entry : MappingEntry) (st : PushState)
    (x : String) (hx : x ≠ a.id) :
    lookupA (pushMapped env teamId a title description entry st).mapping x =
      lookupA st.mapping x := by
  unfold pushMapped pushFail
  repeat' first
    | split
    | dsimp only
  all_goals first
    | rfl
    | (rw [pushAttach_mapping_other _ _ _ _ x hx]
       exact lookupA_setA_ne _ _ _ _ (fun h => hx h.symm))

/-- The unmapped branch only writes the current artifact's mapping key. -/
theorem pushNoMapping_mapping_other (env : Env) (cfg : LinearConfig) (teamId : String)
    (labelIds : Option (List String)) (remoteIssues : List IssueNode)
    (a : Artifact) (title description : String) (st : PushState)
    (x : String) (hx : x ≠ a.id) :
    lookupA (pushNoMapping env cfg teamId labelIds remoteIssues a title description st).mapping x
      = lookupA st.mapping x := by
  unfold pushNoMapping pushFail
  repeat' first
    | split
    | dsimp only
  all_goals first
    | rfl
    | (rw [pushAttach_mapping_other _ _ _ _ x hx]
       exact lookupA_setA_ne _ _ _ _ (fun h => hx h.symm))

/-- One loop step only writes the current artifact's mapping key. -/
theorem pushStep_mapping_other (env : Env) (cfg : LinearConfig) (teamId : String)
    (labelIds : Option (List String)) (remoteIssues : List IssueNode)
    (st : PushState) (a : Artifact) (x : String) (hx : x ≠ a.id) :
    lookupA (pushStep env cfg teamId labelIds remoteIssues st a).mapping x =
      lookupA st.mapping x := by
  unfold pushStep
  repeat' first
    | split
    | dsimp only
  all_goals first
    | rfl
    | exact pushMapped_mapping_other _ _ _ _ _ _ _ x hx
    | exact pushNoMapping_mapping_other _ _ _ _ _ _ _ _ _ x hx

/-- With no remote issues there is never a reuse candidate. -/
theorem findCandidate_nil (pl : Option String) (used : List String) (k tk : String) :
    findCandidate [] pl used k tk = none := rfl

/-- `mappedTruthy` only depends on the key's binding. -/
theorem mappedTruthy_congr (m m' : RecM) (x : String)
    (h : lookupA m x = lookupA m' x) : mappedTruthy m x = mappedTruthy m' x := by
  unfold mappedTruthy
  rw [h]

/-- Replacing `listIssues` does not change the loop body. -/
theorem pushStep_funext_listIssues (env : Env) (g : Nat → Except String (List IssueNode))
    (cfg : LinearConfig) :
    pushStep { env with listIssues := g } cfg = pushStep env cfg := by
  funext teamId labelIds remoteIssues st a
  exact pushStep_listIssues_irrelevant env g cfg teamId labelIds remoteIssues st a

/-- A failing `listIssues` is silently replaced by an empty issue list: the
whole push result equals the one for an environment whose listing returns
`[]`. -/
theorem push_listIssues_error_eq (env : Env) (e : String) (cfg : LinearConfig)
    (mapping : RecM) (artifacts : List Artifact)
    (he : env.listIssues 100 = .error e) :
    push env cfg mapping artifacts =
      push { env with listIssues := fun _ => .ok [] } cfg mapping artifacts := by
  unfold push pushRun
  simp only [pushStep_funext_listIssues]
  cases env
  dsimp only at he ⊢
  rw [he]

/-- A raw create response with truthy id and identifier passes validation. -/
theorem clientCreateIssue_ok (env : Env) (inp : CreateIssueIn)
    (cid ident : String)
    (h : env.createIssue inp = .ok (some cid, some ident))
    (hc : cid ≠ "") (hi : ident ≠ "") :
    clientCreateIssue env inp = .ok (cid, ident) := by
  unfold clientCreateIssue
  rw [h]
  simp [truthyS, hc, hi]

/-- With no remote issues, one loop step creates exactly when the artifact is
neither a conflict artifact nor usably mapped (given creates succeed). -/
theorem pushStep_created_empty (env : Env) (cfg : LinearConfig) (teamId : String)
    (labelIds : Option (List String)) (st : PushState) (a : Artifact)
    (hcr : ∀ inp, ∃ cid ident, env.createIssue inp = .ok (some cid, some ident) ∧
      cid ≠ "" ∧ ident ≠ "") :
    (pushStep env cfg teamId labelIds [] st a).created =
      st.created +
        (if !isConflictArtifact a && !mappedTruthy st.mapping a.id then 1 else 0) := by
  unfold pushStep
  by_cases hc : isConflictArtifact a = true
  · rw [if_pos (by simp [hc])]
    simp [hc]
  · rw [if_neg (by simpa using hc)]
    have hcb : isConflictArtifact a = false := by simpa using hc
    dsimp only
    have hcreate : ∀ st1 : PushState, mappedTruthy st.mapping a.id = false →
        st1 = pushNoMapping env cfg teamId labelIds [] a
          (if a.name = "" then "Untitled" else a.name)
          (artifactDescriptionVia env.readFile a) st →
        st1.created = st.created +
          (if !isConflictArtifact a && !mappedTruthy st.mapping a.id then 1 else 0) := by
      intro st1 hmt hst1
      unfold pushNoMapping at hst1
      dsimp only at hst1
      rw [findCandidate_nil] at hst1
      obtain ⟨cid, ident, hok, hcne, hine⟩ := hcr
        { title := if a.name = "" then "Untitled" else a.name,
          description := artifactDescriptionVia env.readFile a,
          team_id := teamId, project_id := cfg.project_id, label_ids := labelIds }
      rw [clientCreateIssue_ok env _ cid ident hok hcne hine] at hst1
      dsimp only at hst1
      subst hst1
      rw [(pushAttach_fields _ _ _ _).2.1]
      simp [hcb, hmt]
    split
    · rename_i entry heq
      by_cases ht : truthyS entry.issue_id = true
      · rw [if_pos ht]
        have hmt : mappedTruthy st.mapping a.id = true := by
          unfold mappedTruthy
          rw [heq]
          exact ht
        rw [(pushMapped_fields _ _ _ _ _ _ _).2.1]
        simp [hmt]
      · have ht2 : truthyS entry.issue_id = false := by simpa using ht
        rw [if_neg (by simp [ht2])]
        have hmt : mappedTruthy st.mapping a.id = false := by
          unfold mappedTruthy
          rw [heq]
          exact ht2
        exact hcreate _ hmt rfl
    · rename_i heq
      have hmt : mappedTruthy st.mapping a.id = false := by
        unfold mappedTruthy
        rw [heq]
      exact hcreate _ hmt rfl

/-- With no remote issues and distinct artifact ids, the loop creates one
issue per non-conflict unmapped artifact (given creates succeed). -/
theorem pushLoop_created_empty (env : Env) (cfg : LinearConfig) (teamId : String)
    (labelIds : Option (List String)) (as : List Artifact) (st : PushState)
    (hcr : ∀ inp, ∃ cid ident, env.createIssue inp = .ok (some cid, some ident) ∧
      cid ≠ "" ∧ ident ≠ "")
    (hnd : (as.map (fun a => a.id)).Nodup) :
    (as.foldl (pushStep env cfg teamId labelIds []) st).created =
      st.created +
        (as.filter (fun a => !isConflictArtifact a && !mappedTruthy st.mapping a.id)).length := by
  induction as generalizing st with
  | nil => rfl
  | cons a rest ih =>
    simp only [List.map_cons, List.nodup_cons] at hnd
    have hstep := pushStep_created_empty env cfg teamId labelIds st a hcr
    have htrans : ∀ b ∈ rest,
        (!isConflictArtifact b &&
          !mappedTruthy (pushStep env cfg teamId labelIds [] st a).mapping b.id) =
        (!isConflictArtifact b && !mappedTruthy st.mapping b.id) := by
      intro b hb
      have hne : b.id ≠ a.id := by
        intro hEq
        exact hnd.1 (by rw [← hEq]; exact List.mem_map_of_mem _ hb)
      rw [mappedTruthy_congr _ st.mapping b.id
        (pushStep_mapping_other env cfg teamId labelIds [] st a b.id hne)]
    show (rest.foldl _ (pushStep env cfg teamId labelIds [] st a)).created = _
    rw [ih _ hnd.2, List.filter_congr htrans, hstep, List.filter_cons]
    by_cases hpa : (!isConflictArtifact a && !mappedTruthy st.mapping a.id) = true
    · simp [hpa]
      omega
    · have : (!isConflictArtifact a && !mappedTruthy st.mapping a.id) = false := by
        simpa using hpa
      simp [this]

/-- Claim C9: when listing remote issues fails during push, the failure is
silently replaced by an empty issue list — the run's entire result (status,
counts, errors, warnings, persisted mapping) is the one it would produce had
the listing returned no issues, the run still reports status `ok`, and
(provided creation succeeds and artifact ids are distinct) every non-conflict
artifact without a usable Mapping Entry results in a newly created remote
issue instead of a possible reuse. -/
theorem C9_theorem :
    (∀ (env : Env) (e : String) (cfg : LinearConfig) (mapping : RecM)
       (artifacts : List Artifact),
        env.listIssues 100 = .error e →
        push env cfg mapping artifacts =
          push { env with listIssues := fun _ => .ok [] } cfg mapping artifacts) ∧
    (∀ (env : Env) (cfg : LinearConfig) (teamId : String)
       (labelIds : Option (List String)) (warns : List String)
       (mapping : RecM) (artifacts : List Artifact),
        (pushRun env cfg teamId labelIds warns mapping artifacts).status = "ok") ∧
    (∀ (env : Env) (e : String) (cfg : LinearConfig) (mapping : RecM)
       (artifacts : List Artifact) (r : PushOut),
        push env cfg mapping artifacts = .ok r → r.status = "ok" →
        env.listIssues 100 = .error e →
        (∀ inp, ∃ cid ident, env.createIssue inp = .ok (some cid, some ident) ∧
          cid ≠ "" ∧ ident ≠ "") →
        (artifacts.map (fun a => a.id)).Nodup →
        r.created = (artifacts.filter
          (fun a => !isConflictArtifact a && !mappedTruthy mapping a.id)).length) := by
  refine ⟨?_, ?_, ?_⟩
  · exact fun env e cfg mapping artifacts he =>
      push_listIssues_error_eq env e cfg mapping artifacts he
  · intro env cfg teamId labelIds warns mapping artifacts
    rfl
  · intro env e cfg mapping artifacts r h hst he hcr hnd
    obtain ⟨tid, lids, warns, rfl⟩ := push_ok_inv env cfg mapping artifacts r h hst
    unfold pushRun
    have hrem : (match env.listIssues 100 with
        | .ok l => l
        | .error _ => []) = ([] : List IssueNode) := by
      rw [he]
    rw [hrem]
    simpa using pushLoop_created_empty env cfg tid lids artifacts
      { mapping := mapping, used := seedUsed mapping, warnings := warns } hcr hnd

/-- A concrete environment whose issue listing fails and whose issue creation
succeeds. -/
def envC9 : Env :=
  { envTrivial with
    listIssues := fun _ => .error "boom",
    createIssue := fun _ => .ok (some "new-1", some "ENG-9") }

/-- Claim C9 witness: the theorem applied to a concrete run with a failing
listing. -/
theorem C9_witness :
    envC9.listIssues 100 = .error "boom" ∧
    push envC9 cfgPush [] [art1] =
      push { envC9 with listIssues := fun _ => .ok [] } cfgPush [] [art1] ∧
    (pushRun envC9 cfgPush "team-1" none [] [] [art1]).created =
      ([art1].filter (fun a => !isConflictArtifact a && !mappedTruthy [] a.id)).length :=
  ⟨rfl,
   C9_theorem.1 envC9 "boom" cfgPush [] [art1] rfl,
   C9_theorem.2.2 envC9 "boom" cfgPush [] [art1] _ rfl rfl rfl
     (fun _ => ⟨"new-1", "ENG-9", rfl, by decide, by decide⟩) (by simp)⟩

/-! ### Claim C6 -/

/-- Each error appended by the attachment tail comes with one skip. -/
theorem pushAttach_err_skip (env : Env) (a : Artifact) (title : String) (st : PushState) :
    (pushAttach env a title st).errors.length + st.skipped =
      st.errors.length + (pushAttach env a title st).skipped := by
  unfold pushAttach pushFail
  repeat' first
    | split
    | dsimp only
  all_goals first
    | rfl
    | (simp [List.length_append]; omega)
    | (simp [List.length_append])

/-- Each error appended by the mapped branch comes with one skip. -/
theorem pushMapped_err_skip (env : Env) (teamId : String) (a : Artifact)
    (title description : String) (entry : MappingEntry) (st : PushState) :
    (pushMapped env teamId a title description entry st).errors.length + st.skipped =
      st.errors.length + (pushMapped env teamId a title description entry st).skipped := by
  unfold pushMapped pushFail
  repeat' first
    | split
    | dsimp only
  all_goals first
    | exact pushAttach_err_skip _ _ _ _
    | (simp [List.length_append]; omega)
    | (simp [List.length_append])

/-- Each error appended by the unmapped branch comes with one skip. -/
theorem pushNoMapping_err_skip (env : Env) (cfg : LinearConfig) (teamId : String)
    (labelIds : Option (List String)) (remoteIssues : List IssueNode)
    (a : Artifact) (title description : String) (st : PushState) :
    (pushNoMapping env cfg teamId labelIds remoteIssues a title description st).errors.length
        + st.skipped =
      st.errors.length +
        (pushNoMapping env cfg teamId labelIds remoteIssues a title description st).skipped := by
  unfold pushNoMapping pushFail
  repeat' first
    | split
    | dsimp only
  all_goals first
    | exact pushAttach_err_skip _ _ _ _
    | (simp [List.length_append]; omega)
    | (simp [List.length_append])

/-- Each error appended by one loop step comes with one skip. -/
theorem pushStep_err_skip (env : Env) (cfg : LinearConfig) (teamId : String)
    (labelIds : Option (List String)) (remoteIssues : List IssueNode)
    (st : PushState) (a : Artifact) :
    (pushStep env cfg teamId labelIds remoteIssues st a).errors.length + st.skipped =
      st.errors.length + (pushStep env cfg teamId labelIds remoteIssues st a).skipped := by
  unfold pushStep
  repeat' first
    | split
    | dsimp only
  all_goals first
    | rfl
    | exact pushMapped_err_skip _ _ _ _ _ _ _
    | exact pushNoMapping_err_skip _ _ _ _ _ _ _ _ _

/-- Over the loop, the number of errors equals the number of skips. -/
theorem pushLoop_err_skip (env : Env) (cfg : LinearConfig) (teamId : String)
    (labelIds : Option (List String)) (remoteIssues : List IssueNode)
    (as : List Artifact) (st : PushState) :
    (as.foldl (pushStep env cfg teamId labelIds remoteIssues) st).errors.length + st.skipped =
      st.errors.length +
        (as.foldl (pushStep env cfg teamId labelIds remoteIssues) st).skipped := by
  induction as generalizing st with
  | nil => rfl
  | cons a rest ih =>
    simp only [List.foldl_cons]
    have h1 := ih (pushStep env cfg teamId labelIds remoteIssues st a)
    have h2 := pushStep_err_skip env cfg teamId labelIds remoteIssues st a
    omega

/-- Characters of a concatenation. -/
theorem strdata_append (s t : String) : (s ++ t).data = s.data ++ t.data :=
  String.data_append s t

/-- A per-item error string starts with the artifact id and a colon. -/
theorem err_prefix (aid msg : String) :
    List.IsPrefix (aid ++ ": ").data ((aid ++ ": " ++ msg)).data := by
  rw [strdata_append]
  exact ⟨msg.data, rfl⟩

/-- Errors after a caught per-item failure: old ones, or keyed by the id. -/
theorem pushFail_errors_mem (st : PushState) (aid msg e : String)
    (h : e ∈ (pushFail st aid msg).errors) :
    e ∈ st.errors ∨ List.IsPrefix (aid ++ ": ").data e.data := by
  unfold pushFail at h
  rcases List.mem_append.mp h with h2 | h2
  · exact Or.inl h2
  · right
    rw [List.mem_singleton.mp h2]
    exact err_prefix aid msg

/-- Errors after the attachment tail: old ones, or keyed by the id. -/
theorem pushAttach_errors_mem (env : Env) (a : Artifact) (title : String)
    (st : PushState) (e : String)
    (h : e ∈ (pushAttach env a title st).errors) :
    e ∈ st.errors ∨ List.IsPrefix (a.id ++ ": ").data e.data := by
  revert h
  unfold pushAttach
  repeat' first
    | split
    | dsimp only
  all_goals intro h
  all_goals first
    | exact Or.inl h
    | exact pushFail_errors_mem st a.id _ e h

/-- Errors after the mapped branch: old ones, or keyed by the id. -/
theorem pushMapped_errors_mem (env : Env) (teamId : String) (a : Artifact)
    (title description : String) (entry : MappingEntry) (st : PushState) (e : String)
    (h : e ∈ (pushMapped env teamId a title description entry st).errors) :
    e ∈ st.errors ∨ List.IsPrefix (a.id ++ ": ").data e.data := by
  revert h
  unfold pushMapped
  repeat' first
    | split
    | dsimp only
  all_goals intro h
  all_goals first
    | exact pushFail_errors_mem st a.id _ e h
    | exact (pushAttach_errors_mem _ _ _ _ _ h).imp id id

/-- Errors after the unmapped branch: old ones, or keyed by the id. -/
theorem pushNoMapping_errors_mem (env : Env) (cfg : LinearConfig) (teamId : String)
    (labelIds : Option (List String)) (remoteIssues : List IssueNode)
    (a : Artifact) (title description : String) (st : PushState) (e : String)
    (h : e ∈ (pushNoMapping env cfg teamId labelIds remoteIssues a title description st).errors) :
    e ∈ st.errors ∨ List.IsPrefix (a.id ++ ": ").data e.data := by
  revert h
  unfold pushNoMapping
  repeat' first
    | split
    | dsimp only
  all_goals intro h
  all_goals first
    | exact pushFail_errors_mem st a.id _ e h
    | exact (pushAttach_errors_mem _ _ _ _ _ h).imp id id

/-- Errors after one loop step: old ones, or keyed by the artifact id. -/
theorem pushStep_errors_mem (env : Env) (cfg : LinearConfig) (teamId : String)
    (labelIds : Option (List String)) (remoteIssues : List IssueNode)
    (st : PushState) (a : Artifact) (e : String)
    (h : e ∈ (pushStep env cfg teamId labelIds remoteIssues st a).errors) :
    e ∈ st.errors ∨ List.IsPrefix (a.id ++ ": ").data e.data := by
  revert h
  unfold pushStep
  repeat' first
    | split
    | dsimp only
  all_goals intro h
  all_goals first
    | exact Or.inl h
    | exact pushMapped_errors_mem _ _ _ _ _ _ _ _ h
    | exact pushNoMapping_errors_mem _ _ _ _ _ _ _ _ _ _ h

/-- Errors after the loop: initial ones, or keyed by some artifact's id. -/
theorem pushLoop_errors_mem (env : Env) (cfg : LinearConfig) (teamId : String)
    (labelIds : Option (List String)) (remoteIssues : List IssueNode)
    (as : List Artifact) (st : PushState) (e : String)
    (h : e ∈ (as.foldl (pushStep env cfg teamId labelIds remoteIssues) st).errors) :
    e ∈ st.errors ∨ ∃ a ∈ as, List.IsPrefix (a.id ++ ": ").data e.data := by
  induction as generalizing st with
  | nil => exact Or.inl h
  | cons a rest ih =>
    simp only [List.foldl_cons] at h
    rcases ih _ h with h2 | ⟨b, hb, hp⟩
    · rcases pushStep_errors_mem env cfg teamId labelIds remoteIssues st a e h2 with h3 | h3
      · exact Or.inl h3
      · exact Or.inr ⟨a, List.mem_cons_self _ _, h3⟩
    · exact Or.inr ⟨b, List.mem_cons_of_mem _ hb, hp⟩

/-- The attachment tail never un-maps an artifact. -/
theorem pushAttach_mappedTruthy_mono (env : Env) (a : Artifact) (title : String)
    (st : PushState) (x : String)
    (h : mappedTruthy st.mapping x = true) :
    mappedTruthy (pushAttach env a title st).mapping x = true := by
  by_cases hx : x = a.id
  · subst hx
    unfold mappedTruthy at h
    cases hl : lookupA st.mapping a.id with
    | none => rw [hl] at h; simp at h
    | some e =>
      rw [hl] at h
      have h2 : truthyS e.issue_id = true := h
      obtain ⟨e', he', hid⟩ := pushAttach_entry env a title st e hl
      unfold mappedTruthy
      rw [he']
      show truthyS e'.issue_id = true
      rw [hid]
      exact h2
  · unfold mappedTruthy
    rw [pushAttach_mapping_other env a title st x hx]
    exact h

/-- An entry built from an issue with truthy id has a truthy issue id. -/
theorem truthyS_mappingEntryFromIssue (c : IssueNode) (now : Nat) (k : TsKey)
    (h : truthyS c.id = true) :
    truthyS (mappingEntryFromIssue c now k).issue_id = true := by
  unfold mappingEntryFromIssue
  cases k <;> exact h

/-- The mapped branch keeps the current artifact usably mapped. -/
theorem pushMapped_mappedTruthy_self (env : Env) (teamId : String) (a : Artifact)
    (title description : String) (entry : MappingEntry) (st : PushState)
    (hl : lookupA st.mapping a.id = some entry)
    (ht : truthyS entry.issue_id = true) :
    mappedTruthy (pushMapped env teamId a title description entry st).mapping a.id = true := by
  unfold pushMapped
  split
  · unfold pushFail mappedTruthy
    rw [hl]
    exact ht
  all_goals
    dsimp only
    refine pushAttach_mappedTruthy_mono env a _ _ a.id ?_
    unfold mappedTruthy
    rw [lookupA_setA_self]
    exact ht

/-- One loop step never un-maps any artifact. -/
theorem pushStep_mappedTruthy_mono (env : Env) (cfg : LinearConfig) (teamId : String)
    (labelIds : Option (List String)) (remoteIssues : List IssueNode)
    (st : PushState) (a : Artifact) (x : String)
    (h : mappedTruthy st.mapping x = true) :
    mappedTruthy (pushStep env cfg teamId labelIds remoteIssues st a).mapping x = true := by
  by_cases hx : x = a.id
  case neg =>
    unfold mappedTruthy
    rw [pushStep_mapping_other env cfg teamId labelIds remoteIssues st a x hx]
    exact h
  case pos =>
  subst hx
  unfold pushStep
  by_cases hc : isConflictArtifact a = true
  · rw [if_pos (by simp [hc])]
    exact h
  · rw [if_neg (by simp [hc])]
    dsimp only
    split
    · rename_i entry heq
      split
      · rename_i ht
        exact pushMapped_mappedTruthy_self env teamId a _ _ entry st heq ht
      · rename_i ht
        unfold mappedTruthy at h
        rw [heq] at h
        have h2 : truthyS entry.issue_id = true := h
        simp [h2] at ht
    · rename_i heq
      unfold mappedTruthy at h
      rw [heq] at h
      simp at h

/-- The total of the five per-artifact tallies. -/
def sumC (st : PushState) : Nat :=
  st.created + st.updated + st.reused + st.skippedConflict + st.skipped

/-- The attachment tail never decreases the tally total. -/
theorem pushAttach_sum_ge (env : Env) (a : Artifact) (title : String) (st : PushState) :
    sumC st ≤ sumC (pushAttach env a title st) := by
  unfold pushAttach pushFail
  repeat' first
    | split
    | dsimp only
  all_goals simp only [sumC]
  all_goals omega

/-- The mapped branch counts the artifact at least once. -/
theorem pushMapped_sum_ge (env : Env) (teamId : String) (a : Artifact)
    (title description : String) (entry : MappingEntry) (st : PushState) :
    sumC st + 1 ≤ sumC (pushMapped env teamId a title description entry st) := by
  unfold pushMapped pushFail
  repeat' first
    | split
    | dsimp only
  all_goals first
    | (simp only [sumC]; omega)
    | (refine le_trans ?_ (pushAttach_sum_ge _ _ _ _)
       simp only [sumC]
       omega)

/-- The unmapped branch counts the artifact at least once. -/
theorem pushNoMapping_sum_ge (env : Env) (cfg : LinearConfig) (teamId : String)
    (labelIds : Option (List String)) (remoteIssues : List IssueNode)
    (a : Artifact) (title description : String) (st : PushState) :
    sumC st + 1 ≤
      sumC (pushNoMapping env cfg teamId labelIds remoteIssues a title description st) := by
  unfold pushNoMapping pushFail
  repeat' first
    | split
    | dsimp only
  all_goals first
    | (simp only [sumC]; omega)
    | (refine le_trans ?_ (pushAttach_sum_ge _ _ _ _)
       simp only [sumC]
       omega)

/-- Every loop step counts its artifact at least once. -/
theorem pushStep_sum_ge (env : Env) (cfg : LinearConfig) (teamId : String)
    (labelIds : Option (List String)) (remoteIssues : List IssueNode)
    (st : PushState) (a : Artifact) :
    sumC st + 1 ≤ sumC (pushStep env cfg teamId labelIds remoteIssues st a) := by
  unfold pushStep
  repeat' first
    | split
    | dsimp only
  all_goals first
    | (simp only [sumC]; omega)
    | exact pushMapped_sum_ge _ _ _ _ _ _ _
    | exact pushNoMapping_sum_ge _ _ _ _ _ _ _ _ _

/-- The loop counts every artifact at least once: no failure aborts it. -/
theorem pushLoop_sum_ge (env : Env) (cfg : LinearConfig) (teamId : String)
    (labelIds : Option (List String)) (remoteIssues : List IssueNode)
    (as : List Artifact) (st : PushState) :
    sumC st + as.length ≤
      sumC (as.foldl (pushStep env cfg teamId labelIds remoteIssues) st) := by
  induction as generalizing st with
  | nil => simp
  | cons a rest ih =>
    simp only [List.foldl_cons, List.length_cons]
    have h1 := pushStep_sum_ge env cfg teamId labelIds remoteIssues st a
    have h2 := ih (pushStep env cfg teamId labelIds remoteIssues st a)
    omega

/-- The loop never un-maps any artifact. -/
theorem pushLoop_mappedTruthy_mono (env : Env) (cfg : LinearConfig) (teamId : String)
    (labelIds : Option (List String)) (remoteIssues : List IssueNode)
    (as : List Artifact) (st : PushState) (x : String)
    (h : mappedTruthy st.mapping x = true) :
    mappedTruthy ((as.foldl (pushStep env cfg teamId labelIds remoteIssues) st)).mapping x
      = true := by
  induction as generalizing st with
  | nil => exact h
  | cons a rest ih =>
    simp only [List.foldl_cons]
    exact ih _ (pushStep_mappedTruthy_mono env cfg teamId labelIds remoteIssues st a x h)

/-- The attachment tail never drops a recorded error. -/
theorem pushAttach_errors_mono (env : Env) (a : Artifact) (title : String)
    (st : PushState) (e : String) (h : e ∈ st.errors) :
    e ∈ (pushAttach env a title st).errors := by
  unfold pushAttach pushFail
  repeat' first
    | split
    | dsimp only
  all_goals first
    | exact h
    | exact List.mem_append_left _ h

/-- The mapped branch never drops a recorded error. -/
theorem pushMapped_errors_mono (env : Env) (teamId : String) (a : Artifact)
    (title description : String) (entry : MappingEntry) (st : PushState) (e : String)
    (h : e ∈ st.errors) :
    e ∈ (pushMapped env teamId a title description entry st).errors := by
  unfold pushMapped pushFail
  repeat' first
    | split
    | dsimp only
  all_goals first
    | exact h
    | exact List.mem_append_left _ h
    | exact pushAttach_errors_mono _ _ _ _ _ h

/-- The unmapped branch never drops a recorded error. -/
theorem pushNoMapping_errors_mono (env : Env) (cfg : LinearConfig) (teamId : String)
    (labelIds : Option (List String)) (remoteIssues : List IssueNode)
    (a : Artifact) (title description : String) (st : PushState) (e : String)
    (h : e ∈ st.errors) :
    e ∈ (pushNoMapping env cfg teamId labelIds remoteIssues a title description st).errors := by
  unfold pushNoMapping pushFail
  repeat' first
    | split
    | dsimp only
  all_goals first
    | exact h
    | exact List.mem_append_left _ h
    | exact pushAttach_errors_mono _ _ _ _ _ h

/-- One loop step never drops a recorded error. -/
theorem pushStep_errors_mono (env : Env) (cfg : LinearConfig) (teamId : String)
    (labelIds : Option (List String)) (remoteIssues : List IssueNode)
    (st : PushState) (a : Artifact) (e : String) (h : e ∈ st.errors) :
    e ∈ (pushStep env cfg teamId labelIds remoteIssues st a).errors := by
  unfold pushStep
  repeat' first
    | split
    | dsimp only
  all_goals first
    | exact h
    | exact pushMapped_errors_mono _ _ _ _ _ _ _ _ h
    | exact pushNoMapping_errors_mono _ _ _ _ _ _ _ _ _ _ h

/-- The loop never drops a recorded error. -/
theorem pushLoop_errors_mono (env : Env) (cfg : LinearConfig) (teamId : String)
    (labelIds : Option (List String)) (remoteIssues : List IssueNode)
    (as : List Artifact) (st : PushState) (e : String) (h : e ∈ st.errors) :
    e ∈ ((as.foldl (pushStep env cfg teamId labelIds remoteIssues) st)).errors := by
  induction as generalizing st with
  | nil => exact h
  | cons a rest ih =>
    simp only [List.foldl_cons]
    exact ih _ (pushStep_errors_mono env cfg teamId labelIds remoteIssues st a e h)

/-- A validated created issue has a nonempty id. -/
theorem clientCreateIssue_id_ne (env : Env) (inp : CreateIssueIn) (cid ident : String)
    (h : clientCreateIssue env inp = .ok (cid, ident)) : cid ≠ "" := by
  unfold clientCreateIssue at h
  rcases he : env.createIssue inp with e | pr
  · rw [he] at h
    cases h
  · obtain ⟨oid, oident⟩ := pr
    rw [he] at h
    have h2 : (if (truthyS oid && truthyS oident) = true then
        (Except.ok (oid.getD "", oident.getD "") : Except String (String × String))
      else .error "issue_create_failed") = .ok (cid, ident) := h
    by_cases ht : (truthyS oid && truthyS oident) = true
    · rw [if_pos ht] at h2
      cases h2
      rcases (Bool.and_eq_true _ _).mp ht with ⟨h1, _⟩
      cases oid with
      | none => simp [truthyS] at h1
      | some s => simpa [truthyS] using h1
    · rw [if_neg ht] at h2
      cases h2

/-- The unmapped branch leaves its artifact usably mapped, or records an
error keyed by its id. -/
theorem pushNoMapping_mapped_or_err (env : Env) (cfg : LinearConfig) (teamId : String)
    (labelIds : Option (List String)) (remoteIssues : List IssueNode)
    (a : Artifact) (title description : String) (st : PushState) :
    mappedTruthy
        (pushNoMapping env cfg teamId labelIds remoteIssues a title description st).mapping a.id
        = true ∨
    ∃ msg, (a.id ++ ": " ++ msg) ∈
      (pushNoMapping env cfg teamId labelIds remoteIssues a title description st).errors := by
  unfold pushNoMapping
  dsimp only
  have hcreate : ∀ cid ident : String, cid ≠ "" →
      mappedTruthy (pushAttach env a title
        { st with
          mapping := setA st.mapping a.id
            { issue_id := some cid, issue_identifier := some ident },
          used := st.used ++ [cid],
          created := st.created + 1,
          createdIssueIds := st.createdIssueIds ++ [cid],
          createdIssueIdentifiers := st.createdIssueIdentifiers ++ [ident] }).mapping a.id
        = true := by
    intro cid ident hne
    refine pushAttach_mappedTruthy_mono env a _ _ a.id ?_
    unfold mappedTruthy
    rw [lookupA_setA_self]
    simpa [truthyS] using hne
  split
  · rename_i c heq
    by_cases hcid : truthyS c.id = true
    · rw [if_pos hcid]
      left
      refine pushAttach_mappedTruthy_mono env a _ _ a.id ?_
      unfold mappedTruthy
      rw [lookupA_setA_self]
      exact truthyS_mappingEntryFromIssue c env.now .pushed hcid
    · rw [if_neg hcid]
      split
      · rename_i e heq2
        right
        refine ⟨e, ?_⟩
        unfold pushFail
        exact List.mem_append_right _ (List.mem_singleton_self _)
      · rename_i cid ident heq2
        left
        exact hcreate cid ident (clientCreateIssue_id_ne env _ cid ident heq2)
  · split
    · rename_i e heq2
      right
      refine ⟨e, ?_⟩
      unfold pushFail
      exact List.mem_append_right _ (List.mem_singleton_self _)
    · rename_i cid ident heq2
      left
      exact hcreate cid ident (clientCreateIssue_id_ne env _ cid ident heq2)

/-- A non-conflict loop step leaves its artifact usably mapped, or records
an error keyed by its id. -/
theorem pushStep_mapped_or_err (env : Env) (cfg : LinearConfig) (teamId : String)
    (labelIds : Option (List String)) (remoteIssues : List IssueNode)
    (st : PushState) (a : Artifact)
    (hnc : isConflictArtifact a = false) :
    mappedTruthy (pushStep env cfg teamId labelIds remoteIssues st a).mapping a.id = true ∨
    ∃ msg, (a.id ++ ": " ++ msg) ∈
      (pushStep env cfg teamId labelIds remoteIssues st a).errors := by
  unfold pushStep
  rw [if_neg (by simp [hnc])]
  dsimp only
  split
  · rename_i entry heq
    split
    · rename_i ht
      unfold pushMapped
      split
      · rename_i e heq2
        right
        refine ⟨e, ?_⟩
        unfold pushFail
        exact List.mem_append_right _ (List.mem_singleton_self _)
      all_goals
        left
        dsimp only
        refine pushAttach_mappedTruthy_mono env a _ _ a.id ?_
        unfold mappedTruthy
        rw [lookupA_setA_self]
        exact ht
    · exact pushNoMapping_mapped_or_err env cfg teamId labelIds remoteIssues a _ _ st
  · exact pushNoMapping_mapped_or_err env cfg teamId labelIds remoteIssues a _ _ st

/-- Over the whole loop, every non-conflict artifact ends usably mapped or
has a recorded error keyed by its id: associations made before, between and
after failed items survive to the final state. -/
theorem pushLoop_mapped_or_err (env : Env) (cfg : LinearConfig) (teamId : String)
    (labelIds : Option (List String)) (remoteIssues : List IssueNode)
    (as : List Artifact) (st : PushState) :
    ∀ a ∈ as, isConflictArtifact a = false →
      mappedTruthy
          ((as.foldl (pushStep env cfg teamId labelIds remoteIssues) st)).mapping a.id
          = true ∨
      ∃ msg, (a.id ++ ": " ++ msg) ∈
        ((as.foldl (pushStep env cfg teamId labelIds remoteIssues) st)).errors := by
  induction as generalizing st with
  | nil => intro a ha; simp at ha
  | cons a rest ih =>
    intro b hb hbnc
    simp only [List.foldl_cons]
    rcases List.mem_cons.mp hb with rfl | hbr
    · rcases pushStep_mapped_or_err env cfg teamId labelIds remoteIssues st b hbnc with
        h | ⟨m, hm⟩
      · exact Or.inl (pushLoop_mappedTruthy_mono env cfg teamId labelIds remoteIssues rest _
          b.id h)
      · exact Or.inr ⟨m, pushLoop_errors_mono env cfg teamId labelIds remoteIssues rest _ _ hm⟩
    · exact ih _ b hbr hbnc

/-- Claim C6: on any ok push run, every caught per-item failure is recorded
as exactly one error (error count = skip count) keyed by the failing
artifact's identifier (`id: message` prefix), processing reaches every
artifact (each is tallied at least once, so one failing item never aborts
the run), and the Mapping Store is persisted exactly once, the single
written mapping reflecting all successful associations: no previously
mapped artifact is ever un-mapped, and every non-conflict artifact of the
run is either usably mapped in the written mapping or has a recorded error
keyed by its id — associations made before, between and after failed items
all reach the one write. -/
theorem C6_theorem (env : Env) (cfg : LinearConfig) (mapping : RecM)
    (artifacts : List Artifact) (r : PushOut)
    (h : push env cfg mapping artifacts = .ok r) (hst : r.status = "ok") :
    r.errors.length = r.skipped ∧
    (∀ e ∈ r.errors, ∃ a ∈ artifacts, List.IsPrefix (a.id ++ ": ").data e.data) ∧
    (∃ m', r.written = [m'] ∧
      (∀ aid, mappedTruthy mapping aid = true → mappedTruthy m' aid = true) ∧
      (∀ a ∈ artifacts, isConflictArtifact a = false →
        mappedTruthy m' a.id = true ∨
        ∃ msg, (a.id ++ ": " ++ msg) ∈ r.errors)) ∧
    artifacts.length ≤ r.created + r.updated + r.reused + r.skipped_conflict + r.skipped := by
  obtain ⟨tid, lids, warns, rfl⟩ := push_ok_inv env cfg mapping artifacts r h hst
  unfold pushRun
  refine ⟨?_, ?_, ?_, ?_⟩
  · have := pushLoop_err_skip env cfg tid lids
      (match env.listIssues 100 with | .ok l => l | .error _ => []) artifacts
      { mapping := mapping, used := seedUsed mapping, warnings := warns }
    simpa using this
  · intro e he
    rcases pushLoop_errors_mem env cfg tid lids
      (match env.listIssues 100 with | .ok l => l | .error _ => []) artifacts
      { mapping := mapping, used := seedUsed mapping, warnings := warns } e he with h2 | h2
    · simp at h2
    · exact h2
  · refine ⟨_, rfl, fun aid ha => ?_, fun a ha hnc => ?_⟩
    · exact pushLoop_mappedTruthy_mono env cfg tid lids
        (match env.listIssues 100 with | .ok l => l | .error _ => []) artifacts
        { mapping := mapping, used := seedUsed mapping, warnings := warns } aid ha
    · exact pushLoop_mapped_or_err env cfg tid lids
        (match env.listIssues 100 with | .ok l => l | .error _ => []) artifacts
        { mapping := mapping, used := seedUsed mapping, warnings := warns } a ha hnc
  · have := pushLoop_sum_ge env cfg tid lids
      (match env.listIssues 100 with | .ok l => l | .error _ => []) artifacts
      { mapping := mapping, used := seedUsed mapping, warnings := warns }
    simp only [sumC] at this
    simpa using this

/-- Claim C6 witness: the theorem applied to a concrete run whose only
artifact fails at the create call, exercising the error tally, the single
write with its per-artifact accounting, and the full tally bound. -/
theorem C6_witness :
    (pushRun envTrivial cfgPush "team-1" none [] [] [art1]).errors.length =
      (pushRun envTrivial cfgPush "team-1" none [] [] [art1]).skipped ∧
    (∃ m', (pushRun envTrivial cfgPush "team-1" none [] [] [art1]).written = [m'] ∧
      (∀ aid, mappedTruthy [] aid = true → mappedTruthy m' aid = true) ∧
      (∀ a ∈ [art1], isConflictArtifact a = false →
        mappedTruthy m' a.id = true ∨
        ∃ msg, (a.id ++ ": " ++ msg) ∈
          (pushRun envTrivial cfgPush "team-1" none [] [] [art1]).errors)) ∧
    ([art1].length ≤
      (pushRun envTrivial cfgPush "team-1" none [] [] [art1]).created +
        (pushRun envTrivial cfgPush "team-1" none [] [] [art1]).updated +
        (pushRun envTrivial cfgPush "team-1" none [] [] [art1]).reused +
        (pushRun envTrivial cfgPush "team-1" none [] [] [art1]).skipped_conflict +
        (pushRun envTrivial cfgPush "team-1" none [] [] [art1]).skipped) :=
  ⟨(C6_theorem envTrivial cfgPush [] [art1] _ rfl rfl).1,
   (C6_theorem envTrivial cfgPush [] [art1] _ rfl rfl).2.2.1,
   (C6_theorem envTrivial cfgPush [] [art1] _ rfl rfl).2.2.2⟩

/-! ### Claim C7 -/

/-- The attachment tail never decreases the skip counter. -/
theorem pushAttach_skipped_mono (env : Env) (a : Artifact) (title : String)
    (st : PushState) : st.skipped ≤ (pushAttach env a title st).skipped := by
  unfold pushAttach pushFail
  repeat' first
    | split
    | dsimp only
  all_goals omega

/-- The mapped branch never decreases the skip counter. -/
theorem pushMapped_skipped_mono (env : Env) (teamId : String) (a : Artifact)
    (title description : String) (entry : MappingEntry) (st : PushState) :
    st.skipped ≤ (pushMapped env teamId a title description entry st).skipped := by
  unfold pushMapped pushFail
  repeat' first
    | split
    | dsimp only
  all_goals first
    | omega
    | (refine le_trans ?_ (pushAttach_skipped_mono _ _ _ _)
       exact le_of_eq rfl)

/-- The unmapped branch never decreases the skip counter. -/
theorem pushNoMapping_skipped_mono (env : Env) (cfg : LinearConfig) (teamId : String)
    (labelIds : Option (List String)) (remoteIssues : List IssueNode)
    (a : Artifact) (title description : String) (st : PushState) :
    st.skipped ≤
      (pushNoMapping env cfg teamId labelIds remoteIssues a title description st).skipped := by
  unfold pushNoMapping pushFail
  repeat' first
    | split
    | dsimp only
  all_goals first
    | omega
    | (refine le_trans ?_ (pushAttach_skipped_mono _ _ _ _)
       exact le_of_eq rfl)

/-- One loop step never decreases the skip counter. -/
theorem pushStep_skipped_mono (env : Env) (cfg : LinearConfig) (teamId : String)
    (labelIds : Option (List String)) (remoteIssues : List IssueNode)
    (st : PushState) (a : Artifact) :
    st.skipped ≤ (pushStep env cfg teamId labelIds remoteIssues st a).skipped := by
  unfold pushStep
  repeat' first
    | split
    | dsimp only
  all_goals first
    | omega
    | (refine le_trans ?_ (pushMapped_skipped_mono _ _ _ _ _ _ _)
       exact le_of_eq rfl)
    | (refine le_trans ?_ (pushNoMapping_skipped_mono _ _ _ _ _ _ _ _ _)
       exact le_of_eq rfl)

/-- The loop never decreases the skip counter. -/
theorem pushLoop_skipped_mono (env : Env) (cfg : LinearConfig) (teamId : String)
    (labelIds : Option (List String)) (remoteIssues : List IssueNode)
    (as : List Artifact) (st : PushState) :
    st.skipped ≤ (as.foldl (pushStep env cfg teamId labelIds remoteIssues) st).skipped := by
  induction as generalizing st with
  | nil => exact le_of_eq rfl
  | cons a rest ih =>
    simp only [List.foldl_cons]
    exact le_trans (pushStep_skipped_mono env cfg teamId labelIds remoteIssues st a)
      (ih (pushStep env cfg teamId labelIds remoteIssues st a))

/-- The unmapped branch either leaves the artifact usably mapped or counts
one skip. -/
theorem pushNoMapping_mapped_or_skip (env : Env) (cfg : LinearConfig) (teamId : String)
    (labelIds : Option (List String)) (remoteIssues : List IssueNode)
    (a : Artifact) (title description : String) (st : PushState) :
    mappedTruthy
        (pushNoMapping env cfg teamId labelIds remoteIssues a title description st).mapping a.id
        = true ∨
    (pushNoMapping env cfg teamId labelIds remoteIssues a title description st).skipped
      = st.skipped + 1 := by
  unfold pushNoMapping
  dsimp only
  have hcreate : ∀ cid ident : String, cid ≠ "" →
      mappedTruthy (pushAttach env a title
        { st with
          mapping := setA st.mapping a.id
            { issue_id := some cid, issue_identifier := some ident },
          used := st.used ++ [cid],
          created := st.created + 1,
          createdIssueIds := st.createdIssueIds ++ [cid],
          createdIssueIdentifiers := st.createdIssueIdentifiers ++ [ident] }).mapping a.id
        = true := by
    intro cid ident hne
    refine pushAttach_mappedTruthy_mono env a _ _ a.id ?_
    unfold mappedTruthy
    rw [lookupA_setA_self]
    simpa [truthyS] using hne
  split
  · rename_i c heq
    by_cases hcid : truthyS c.id = true
    · rw [if_pos hcid]
      left
      refine pushAttach_mappedTruthy_mono env a _ _ a.id ?_
      unfold mappedTruthy
      rw [lookupA_setA_self]
      exact truthyS_mappingEntryFromIssue c env.now .pushed hcid
    · rw [if_neg hcid]
      split
      · rename_i e heq2
        right
        rfl
      · rename_i cid ident heq2
        left
        exact hcreate cid ident (clientCreateIssue_id_ne env _ cid ident heq2)
  · split
    · rename_i e heq2
      right
      rfl
    · rename_i cid ident heq2
      left
      exact hcreate cid ident (clientCreateIssue_id_ne env _ cid ident heq2)

/-- A non-conflict loop step either leaves the artifact usably mapped or
counts one skip. -/
theorem pushStep_mapped_or_skip (env : Env) (cfg : LinearConfig) (teamId : String)
    (labelIds : Option (List String)) (remoteIssues : List IssueNode)
    (st : PushState) (a : Artifact)
    (hnc : isConflictArtifact a = false) :
    mappedTruthy (pushStep env cfg teamId labelIds remoteIssues st a).mapping a.id = true ∨
    (pushStep env cfg teamId labelIds remoteIssues st a).skipped = st.skipped + 1 := by
  unfold pushStep
  rw [if_neg (by simp [hnc])]
  dsimp only
  split
  · rename_i entry heq
    split
    · rename_i ht
      unfold pushMapped
      split
      · right
        rfl
      all_goals
        left
        dsimp only
        refine pushAttach_mappedTruthy_mono env a _ _ a.id ?_
        unfold mappedTruthy
        rw [lookupA_setA_self]
        exact ht
    · exact pushNoMapping_mapped_or_skip env cfg teamId labelIds remoteIssues a _ _ st
  · exact pushNoMapping_mapped_or_skip env cfg teamId labelIds remoteIssues a _ _ st

/-- A non-conflict loop step that skipped nothing leaves its artifact usably
mapped. -/
theorem pushStep_success_mapped (env : Env) (cfg : LinearConfig) (teamId : String)
    (labelIds : Option (List String)) (remoteIssues : List IssueNode)
    (st : PushState) (a : Artifact)
    (hnc : isConflictArtifact a = false)
    (hskip : (pushStep env cfg teamId labelIds remoteIssues st a).skipped = st.skipped) :
    mappedTruthy (pushStep env cfg teamId labelIds remoteIssues st a).mapping a.id = true := by
  rcases pushStep_mapped_or_skip env cfg teamId labelIds remoteIssues st a hnc with h | h
  · exact h
  · omega

/-- A loop run with no skips leaves every non-conflict artifact usably
mapped. -/
theorem pushLoop_success_mapped (env : Env) (cfg : LinearConfig) (teamId : String)
    (labelIds : Option (List String)) (remoteIssues : List IssueNode)
    (as : List Artifact) (st : PushState)
    (hskip : (as.foldl (pushStep env cfg teamId labelIds remoteIssues) st).skipped
      = st.skipped) :
    ∀ a ∈ as, isConflictArtifact a = false →
      mappedTruthy
        ((as.foldl (pushStep env cfg teamId labelIds remoteIssues) st)).mapping a.id
        = true := by
  induction as generalizing st with
  | nil => intro a ha; simp at ha
  | cons a rest ih =>
    simp only [List.foldl_cons] at hskip ⊢
    have hm1 := pushStep_skipped_mono env cfg teamId labelIds remoteIssues st a
    have hm2 := pushLoop_skipped_mono env cfg teamId labelIds remoteIssues rest
      (pushStep env cfg teamId labelIds remoteIssues st a)
    have hst1 : (pushStep env cfg teamId labelIds remoteIssues st a).skipped = st.skipped := by
      omega
    intro b hb hbnc
    rcases List.mem_cons.mp hb with rfl | hbr
    · exact pushLoop_mappedTruthy_mono env cfg teamId labelIds remoteIssues rest _ b.id
        (pushStep_success_mapped env cfg teamId labelIds remoteIssues st b hbnc hst1)
    · exact ih _ (by omega) b hbr hbnc

/-- A step on a conflict artifact or a usably mapped artifact creates
nothing. -/
theorem pushStep_created_of_mapped (env : Env) (cfg : LinearConfig) (teamId : String)
    (labelIds : Option (List String)) (remoteIssues : List IssueNode)
    (st : PushState) (a : Artifact)
    (h : isConflictArtifact a = true ∨ mappedTruthy st.mapping a.id = true) :
    (pushStep env cfg teamId labelIds remoteIssues st a).created = st.created := by
  unfold pushStep
  by_cases hc : isConflictArtifact a = true
  · rw [if_pos (by simp [hc])]
  · rw [if_neg (by simp [hc])]
    rcases h with h | h
    · exact absurd h hc
    · dsimp only
      split
      · rename_i entry heq
        unfold mappedTruthy at h
        rw [heq] at h
        have ht : truthyS entry.issue_id = true := h
        rw [if_pos ht]
        exact (pushMapped_fields _ _ _ _ _ _ _).2.1
      · rename_i heq
        unfold mappedTruthy at h
        rw [heq] at h
        simp at h

/-- A loop over artifacts that are each conflict-tagged or usably mapped
creates nothing. -/
theorem pushLoop_created_of_mapped (env : Env) (cfg : LinearConfig) (teamId : String)
    (labelIds : Option (List String)) (remoteIssues : List IssueNode)
    (as : List Artifact) (st : PushState)
    (hall : ∀ a ∈ as, isConflictArtifact a = true ∨ mappedTruthy st.mapping a.id = true) :
    (as.foldl (pushStep env cfg teamId labelIds remoteIssues) st).created = st.created := by
  induction as generalizing st with
  | nil => rfl
  | cons a rest ih =>
    simp only [List.foldl_cons]
    have hstep := pushStep_created_of_mapped env cfg teamId labelIds remoteIssues st a
      (hall a (List.mem_cons_self _ _))
    rw [ih _ ?_, hstep]
    intro b hb
    rcases hall b (List.mem_cons_of_mem _ hb) with h | h
    · exact Or.inl h
    · exact Or.inr (pushStep_mappedTruthy_mono env cfg teamId labelIds remoteIssues st a
        b.id h)

/-- Claim C7: push is idempotent with respect to creation — if a first push
run reports ok with no per-item failures, then a second push run over the
same artifacts, starting from the mapping the first run persisted, reports
zero creates: every artifact resolves through its existing Mapping Entry or
is skipped as a conflict artifact. -/
theorem C7_theorem (env1 env2 : Env) (cfg : LinearConfig) (mapping m1 : RecM)
    (artifacts : List Artifact) (r1 r2 : PushOut)
    (h1 : push env1 cfg mapping artifacts = .ok r1) (hs1 : r1.status = "ok")
    (hskip1 : r1.skipped = 0) (hw : r1.written = [m1])
    (h2 : push env2 cfg m1 artifacts = .ok r2) (hs2 : r2.status = "ok") :
    r2.created = 0 := by
  obtain ⟨t1, l1, w1, rfl⟩ := push_ok_inv env1 cfg mapping artifacts r1 h1 hs1
  obtain ⟨t2, l2, w2, rfl⟩ := push_ok_inv env2 cfg m1 artifacts r2 h2 hs2
  unfold pushRun at hskip1 hw ⊢
  have hm1 : m1 =
      (artifacts.foldl
        (pushStep env1 cfg t1 l1
          (match env1.listIssues 100 with | .ok l => l | .error _ => []))
        { mapping := mapping, used := seedUsed mapping, warnings := w1 }).mapping := by
    have := (List.cons.injEq _ _ _ _).mp hw
    exact this.1.symm
  have hmapped := pushLoop_success_mapped env1 cfg t1 l1
    (match env1.listIssues 100 with | .ok l => l | .error _ => []) artifacts
    { mapping := mapping, used := seedUsed mapping, warnings := w1 } (by simpa using hskip1)
  refine (pushLoop_created_of_mapped env2 cfg t2 l2
    (match env2.listIssues 100 with | .ok l => l | .error _ => []) artifacts
    { mapping := m1, used := seedUsed m1, warnings := w2 } ?_).trans rfl
  intro a ha
  by_cases hc : isConflictArtifact a = true
  · exact Or.inl hc
  · refine Or.inr ?_
    show mappedTruthy m1 a.id = true
    rw [hm1]
    exact hmapped a ha (by simpa using hc)

/-- The second-run environment: the now-mapped issue accepts updates. -/
def env2C7 : Env :=
  { envC1 with updateIssue := fun _ _ _ => .ok (some "iss-1", some "ENG-1") }

/-- Claim C7 witness: the theorem applied to a concrete pair of runs (reuse
then update). -/
theorem C7_witness :
    (pushRun envC1 cfgC1 "team-1" (some ["lbl-1"]) [] [] [art1]).skipped = 0 ∧
    (pushRun env2C7 cfgC1 "team-1" (some ["lbl-1"]) []
      ((pushRun envC1 cfgC1 "team-1" (some ["lbl-1"]) [] [] [art1]).written.headI)
      [art1]).created = 0 :=
  ⟨rfl,
   C7_theorem envC1 env2C7 cfgC1 []
     ((pushRun envC1 cfgC1 "team-1" (some ["lbl-1"]) [] [] [art1]).written.headI)
     [art1] _ _ rfl rfl rfl rfl rfl rfl⟩


/-- On digits below ten, `digitChar` is injective. -/
theorem digitChar_inj : ∀ d, d < 10 → ∀ e, e < 10 → digitChar d = digitChar e → d = e := by
  decide

/-- Digit-wise injectivity of `digitChar` lifted to digit lists. -/
theorem map_digitChar_inj : ∀ l1 l2 : List Nat, (∀ d ∈ l1, d < 10) → (∀ d ∈ l2, d < 10) →
    l1.map digitChar = l2.map digitChar → l1 = l2 := by
  intro l1
  induction l1 with
  | nil =>
    intro l2 _ _ h
    cases l2 with
    | nil => rfl
    | cons b t => simp at h
  | cons a t ih =>
    intro l2 h1 h2 h
    cases l2 with
    | nil => simp at h
    | cons b t2 =>
      simp only [List.map_cons, List.cons.injEq] at h
      have ha : a = b := digitChar_inj a (h1 a (by simp)) b (h2 b (by simp)) h.1
      rw [ha, ih t2 (fun d hd => h1 d (by simp [hd])) (fun d hd => h2 d (by simp [hd])) h.2]

/-- Distinct positive numbers print to distinct decimal strings
(via the `Nat.digits` round trip). -/
theorem natToStr_inj (m n : Nat) (hm : m ≠ 0) (hn : n ≠ 0)
    (h : natToStr m = natToStr n) : m = n := by
  unfold natToStr at h
  rw [if_neg hm, if_neg hn] at h
  have hdata : ((Nat.digits 10 m).reverse).map digitChar =
      ((Nat.digits 10 n).reverse).map digitChar := by
    have := congrArg String.data h
    simpa using this
  have hd : (Nat.digits 10 m).reverse = (Nat.digits 10 n).reverse := by
    refine map_digitChar_inj _ _ ?_ ?_ hdata
    · intro d hd
      exact Nat.digits_lt_base (by norm_num) (List.mem_reverse.mp hd)
    · intro d hd
      exact Nat.digits_lt_base (by norm_num) (List.mem_reverse.mp hd)
  have hdig : Nat.digits 10 m = Nat.digits 10 n := by
    have := congrArg List.reverse hd
    simpa using this
  calc m = Nat.ofDigits 10 (Nat.digits 10 m) := (Nat.ofDigits_digits 10 m).symm
    _ = Nat.ofDigits 10 (Nat.digits 10 n) := by rw [hdig]
    _ = n := Nat.ofDigits_digits 10 n

/-- A positive number prints to a nonempty string. -/
theorem natToStr_ne_nil (n : Nat) : (natToStr n).data ≠ [] := by
  unfold natToStr
  by_cases h : n = 0
  · rw [if_pos h]
    simp
  · rw [if_neg h]
    simp only
    intro hc
    have : (Nat.digits 10 n).reverse.map digitChar = [] := hc
    simp only [List.map_eq_nil_iff, List.reverse_eq_nil_iff] at this
    exact (Nat.digits_ne_nil_iff_ne_zero.mpr h) this

/-- The character data of a filename candidate. -/
theorem candName_data (base ext : String) (k : Nat) :
    (candName base ext (k + 1)).data =
      base.data ++ "-".data ++ (natToStr (k + 2)).data ++ ext.data := by
  unfold candName
  simp [strdata_append, List.append_assoc]

/-- Distinct candidate indices give distinct candidate filenames. -/
theorem candName_inj (base ext : String) : ∀ i j : Nat,
    candName base ext i = candName base ext j → i = j := by
  have hlen : ∀ j : Nat, (candName base ext 0).data.length <
      (candName base ext (j + 1)).data.length := by
    intro j
    rw [candName_data]
    unfold candName
    rw [strdata_append]
    simp only [List.length_append]
    have h1 : ("-" : String).data.length = 1 := rfl
    have h2 : 1 ≤ (natToStr (j + 2)).data.length := by
      cases hq : (natToStr (j + 2)).data with
      | nil => exact absurd hq (natToStr_ne_nil _)
      | cons c t => simp
    omega
  intro i j h
  match i, j with
  | 0, 0 => rfl
  | 0, j+1 =>
    exfalso
    have := congrArg (fun s => s.data.length) h
    simp only at this
    exact absurd this (Nat.ne_of_lt (hlen j))
  | i+1, 0 =>
    exfalso
    have := congrArg (fun s => s.data.length) h
    simp only at this
    exact absurd this.symm (Nat.ne_of_lt (hlen i))
  | i+1, j+1 =>
    have hdata := congrArg String.data h
    rw [candName_data, candName_data] at hdata
    simp only [List.append_assoc] at hdata
    have h1 := List.append_cancel_left hdata
    have h2 := List.append_cancel_left h1
    have h3 := List.append_cancel_right h2
    have h4 : natToStr (i + 2) = natToStr (j + 2) := by
      cases hni : natToStr (i + 2) with
      | mk d1 =>
      cases hnj : natToStr (j + 2) with
      | mk d2 =>
      have e1 : (natToStr (i + 2)).data = d1 := by rw [hni]
      have e2 : (natToStr (j + 2)).data = d2 := by rw [hnj]
      rw [e1, e2] at h3
      rw [h3]
    have := natToStr_inj (i + 2) (j + 2) (by omega) (by omega) h4
    omega

/-- A lookup succeeds exactly when some binding has the key. -/
theorem lookupA_isSome_iff {β : Type} (l : List (String × β)) (k : String) :
    (lookupA l k).isSome = true ↔ k ∈ l.map Prod.fst := by
  unfold lookupA
  have hiso : ∀ o : Option (String × β),
      (Option.map (fun p => p.2) o).isSome = o.isSome := by
    intro o
    cases o <;> rfl
  rw [hiso, List.find?_isSome]
  constructor
  · rintro ⟨p, hp, hpk⟩
    have : p.1 = k := by simpa using hpk
    rw [← this]
    exact List.mem_map_of_mem _ hp
  · intro hk
    rcases List.mem_map.mp hk with ⟨p, hp, hpk⟩
    exact ⟨p, hp, by simpa using hpk⟩

/-- Distinct candidate indices give distinct full candidate paths. -/
theorem pathCand_inj (base ext : String) (i j : Nat)
    (h : artifactsDir ++ "/" ++ candName base ext i =
      artifactsDir ++ "/" ++ candName base ext j) : i = j := by
  apply candName_inj base ext
  have hdata := congrArg String.data h
  simp only [strdata_append, List.append_assoc] at hdata
  have h2 := List.append_cancel_left (List.append_cancel_left hdata)
  exact congrArg String.mk h2

/-- Pigeonhole: among the first `files.length + 1` candidate
filenames, at least one is not taken. -/
theorem exists_free_cand (files : Files) (base ext : String) :
    ∃ i, i < files.length + 1 ∧ fileTaken files (candName base ext i) = false := by
  by_contra hall
  push_neg at hall
  have htaken : ∀ i < files.length + 1,
      (artifactsDir ++ "/" ++ candName base ext i) ∈ files.map Prod.fst := by
    intro i hi
    have h1 := hall i hi
    have h2 : fileTaken files (candName base ext i) = true := by
      cases hb : fileTaken files (candName base ext i) with
      | false => exact absurd hb h1
      | true => rfl
    unfold fileTaken at h2
    exact (lookupA_isSome_iff files _).mp h2
  set L := (List.range (files.length + 1)).map
    (fun i => artifactsDir ++ "/" ++ candName base ext i) with hL
  have hnd : L.Nodup := by
    refine List.Nodup.map_on ?_ (List.nodup_range _)
    intro i _ j _ hij
    exact pathCand_inj base ext i j hij
  have hsub : L ⊆ files.map Prod.fst := by
    intro x hx
    rcases List.mem_map.mp hx with ⟨i, hi, rfl⟩
    exact htaken i (List.mem_range.mp hi)
  have hcard1 : L.toFinset.card = files.length + 1 := by
    rw [List.toFinset_card_of_nodup hnd]
    simp [hL]
  have hcard2 : L.toFinset ⊆ (files.map Prod.fst).toFinset := by
    intro x hx
    rw [List.mem_toFinset] at hx ⊢
    exact hsub hx
  have hcard3 : (files.map Prod.fst).toFinset.card ≤ files.length := by
    calc (files.map Prod.fst).toFinset.card ≤ (files.map Prod.fst).length :=
      List.toFinset_card_le _
    _ = files.length := by simp
  have := Finset.card_le_card hcard2
  omega

/-- The candidate loop returns a free name whenever a free candidate
lies within its fuel. -/
theorem uniqueGo_free (files : Files) (base ext : String) :
    ∀ fuel k, (∃ i, i < fuel ∧ fileTaken files (candName base ext (k + i)) = false) →
    fileTaken files (uniqueGo files base ext fuel k) = false := by
  intro fuel
  induction fuel with
  | zero =>
    intro k ⟨i, hi, _⟩
    omega
  | succ fuel ih =>
    intro k ⟨i, hi, hfree⟩
    unfold uniqueGo
    by_cases ht : fileTaken files (candName base ext k) = true
    · rw [if_pos ht]
      refine ih (k + 1) ⟨i - 1, ?_, ?_⟩
      · rcases Nat.eq_zero_or_pos i with rfl | hip
        · rw [Nat.add_zero] at hfree
          rw [hfree] at ht
          cases ht
        · omega
      · rcases Nat.eq_zero_or_pos i with rfl | hip
        · rw [Nat.add_zero] at hfree
          rw [hfree] at ht
          cases ht
        · have : k + 1 + (i - 1) = k + i := by omega
          rw [this]
          exact hfree
    · rw [if_neg ht]
      simpa using ht

/-- `uniqueFilename` always returns a filename that is not taken:
the loop's fuel covers one more candidate than there are existing files. -/
theorem uniqueFilename_fresh (files : Files) (base ext : String) :
    fileTaken files (uniqueFilename files base ext) = false := by
  unfold uniqueFilename
  refine uniqueGo_free files base ext (files.length + 1) 0 ?_
  obtain ⟨i, hi, hfree⟩ := exists_free_cand files base ext
  exact ⟨i, hi, by simpa using hfree⟩

/-- A find into the left part of an appended list. -/
theorem find?_append_some {α : Type} (p : α → Bool) (l1 l2 : List α) (a : α)
    (h : l1.find? p = some a) : (l1 ++ l2).find? p = some a := by
  induction l1 with
  | nil => simp at h
  | cons x t ih =>
    by_cases hx : p x = true
    · rw [List.find?_cons_of_pos _ hx] at h
      rw [List.cons_append, List.find?_cons_of_pos _ hx]
      exact h
    · rw [List.find?_cons_of_neg _ (by simpa using hx)] at h
      rw [List.cons_append, List.find?_cons_of_neg _ (by simpa using hx)]
      exact ih h

/-- `replaceFirst` preserves the length of the artifact list. -/
theorem replaceFirst_length (l : List Artifact) (aid : String) (na : Artifact) :
    (replaceFirst l aid na).length = l.length := by
  induction l with
  | nil => rfl
  | cons x t ih =>
    unfold replaceFirst
    by_cases hx : (x.id == aid) = true
    · rw [if_pos hx]
      simp
    · rw [if_neg hx]
      simp [ih]

/-- When the replaced id occurs in the left part, `replaceFirst`
leaves the appended right part untouched. -/
theorem replaceFirst_append_left (l1 l2 : List Artifact) (aid : String) (na a : Artifact)
    (h : l1.find? (fun x => x.id == aid) = some a) :
    replaceFirst (l1 ++ l2) aid na = replaceFirst l1 aid na ++ l2 := by
  induction l1 with
  | nil => simp at h
  | cons x t ih =>
    by_cases hx : (x.id == aid) = true
    · rw [List.cons_append]
      unfold replaceFirst
      rw [if_pos hx, if_pos hx]
      rfl
    · rw [List.find?_cons_of_neg _ (by simpa using hx)] at h
      rw [List.cons_append]
      unfold replaceFirst
      rw [if_neg hx, if_neg hx, List.cons_append, ih h]

/-- After `replaceFirst`, looking the id up finds the replacement. -/
theorem find?_replaceFirst (l : List Artifact) (aid : String) (na a : Artifact)
    (h : l.find? (fun x => x.id == aid) = some a) (hna : (na.id == aid) = true) :
    (replaceFirst l aid na).find? (fun x => x.id == aid) = some na := by
  induction l with
  | nil => simp at h
  | cons x t ih =>
    unfold replaceFirst
    by_cases hx : (x.id == aid) = true
    · rw [if_pos hx]
      exact List.find?_cons_of_pos _ hna
    · rw [if_neg hx]
      rw [List.find?_cons_of_neg _ (by simpa using hx)] at h
      rw [List.find?_cons_of_neg _ (by simpa using hx)]
      exact ih h

/-- `updateArtifact` with a new name and content: the manifest entry
is replaced in place (name, size and timestamp refreshed) and the artifact's
file is overwritten. -/
theorem updateArtifact_name_content (st : StoreState) (now : Nat) (aid : String)
    (title desc : String) (art : Artifact)
    (hart : st.artifacts.find? (fun a => a.id == aid) = some art) :
    updateArtifact st now aid { name := some title, content := some desc } =
      ({ st with
          files := setA st.files (artifactPath art) desc,
          artifacts := replaceFirst st.artifacts aid
            { art with
              name := title
              size_bytes := desc.length
              updated_at := some now } },
        some { art with
               name := title
               size_bytes := desc.length
               updated_at := some now }) := by
  unfold updateArtifact
  rw [hart]
  rfl

/-- `createConflictCopy` on an artifact whose file exists: a copy
named `… (conflict)` and tagged `conflict` is appended to the manifest, its
fresh file holds the original's content, and one conflict record referencing
the copy is appended; the copy's path is new on disk, hence distinct from the
original's. -/
theorem createConflictCopy_spec (st : StoreState) (now : Nat) (inp : ConflictIn)
    (art : Artifact) (content : String)
    (hart : storeGetArtifact st inp.artifact_id = some art)
    (hfile : lookupA st.files (artifactPath art) = some content) :
    ∃ copy : Artifact,
      createConflictCopy st now inp =
        ({ st with
            artifacts := st.artifacts ++ [copy],
            conflicts := st.conflicts ++
              [{ artifact_id := inp.artifact_id
                 source := inp.source
                 note := inp.note
                 conflict_artifact_id := some copy.id
                 created_at := some now }],
            files := setA st.files (artifactPath copy) content,
            nextId := st.nextId + 1 }, some copy) ∧
      copy.name = art.name ++ " (conflict)" ∧
      copy.tags = art.tags ++ ["conflict"] ∧
      lookupA st.files (artifactPath copy) = none ∧
      artifactPath copy ≠ artifactPath art := by
  have hfree := uniqueFilename_fresh st.files (slugify (art.name ++ " (conflict)")) ".md"
  unfold fileTaken at hfree
  have hnone : lookupA st.files (artifactsDir ++ "/" ++
      uniqueFilename st.files (slugify (art.name ++ " (conflict)")) ".md") = none := by
    cases hl : lookupA st.files (artifactsDir ++ "/" ++
        uniqueFilename st.files (slugify (art.name ++ " (conflict)")) ".md") with
    | none => rfl
    | some c => rw [hl] at hfree; simp at hfree
  refine ⟨{ id := "uuid-" ++ natToStr st.nextId
            name := art.name ++ " (conflict)"
            filename := uniqueFilename st.files (slugify (art.name ++ " (conflict)")) ".md"
            kind := art.kind
            mime_type := art.mime_type
            size_bytes := content.length
            tags := art.tags ++ ["conflict"]
            created_at := some now
            updated_at := some now }, ?_, rfl, rfl, hnone, ?_⟩
  · unfold createConflictCopy
    simp only [hart, hfile]
    unfold createArtifact
    dsimp only
    rw [lookupA_setA_self]
    rfl
  · intro heq
    have hx : lookupA st.files (artifactPath art) = none := by
      rw [← heq]
      exact hnone
    rw [hfile] at hx
    cases hx

/-- Field-wise corollary of `createConflictCopy_spec`. -/
theorem createConflictCopy_fields (st : StoreState) (now : Nat) (inp : ConflictIn)
    (art : Artifact) (content : String)
    (hart : storeGetArtifact st inp.artifact_id = some art)
    (hfile : lookupA st.files (artifactPath art) = some content) :
    ∃ copy stc, createConflictCopy st now inp = (stc, some copy) ∧
      stc.artifacts = st.artifacts ++ [copy] ∧
      stc.conflicts = st.conflicts ++
        [{ artifact_id := inp.artifact_id
           source := inp.source
           note := inp.note
           conflict_artifact_id := some copy.id
           created_at := some now }] ∧
      stc.files = setA st.files (artifactPath copy) content ∧
      copy.name = art.name ++ " (conflict)" ∧
      copy.tags = art.tags ++ ["conflict"] ∧
      lookupA st.files (artifactPath copy) = none ∧
      artifactPath copy ≠ artifactPath art := by
  obtain ⟨copy, hcc, h1, h2, h3, h4⟩ :=
    createConflictCopy_spec st now inp art content hart hfile
  exact ⟨copy, _, hcc, rfl, rfl, rfl, h1, h2, h3, h4⟩

/-- Control-flow reduction of `pullStep` on the genuine-local-edit
path (truthy issue id, issue fetched, local content differing from the remote
description, artifact modified strictly after the last sync, conflict copies
enabled): the step creates the conflict copy and then overwrites the artifact
from the issue. -/
theorem pullStep_conflict_eq (env : Env) (st : PullState) (aid : String)
    (entry : MappingEntry) (issue : GotIssue) (art : Artifact)
    (content : String) (u t : Nat)
    (hid : truthyS entry.issue_id = true)
    (hget : clientGetIssue env (entry.issue_id.getD "") = .ok issue)
    (hart : storeGetArtifact st.store aid = some art)
    (hfile : lookupA st.store.files (artifactPath art) = some content)
    (hdiff : content ≠ issue.description)
    (hupd : art.updated_at = some u)
    (hsync : maxTs entry.last_pulled_at entry.last_pushed_at = some t)
    (hlater : t < u) :
    pullStep env true st (aid, entry) =
      (let st1 : PullState := { st with
          store := (createConflictCopy st.store env.now
            { artifact_id := aid
              source := "linear"
              note := "Local edits detected during pull; conflict copy created." }).1
          conflictArtifactIds := st.conflictArtifactIds ++ [aid] }
       let ur := updateArtifact st1.store env.now aid
          { name := some issue.title, content := some issue.description }
       match ur.2 with
       | some _ => { st1 with
            store := ur.1
            mapping := setA st1.mapping aid { entry with
              issue_identifier := some issue.identifier
              issue_team_name := issue.team_name
              issue_team_id := issue.team_id
              issue_project_name := issue.project_name
              issue_project_id := issue.project_id
              last_pulled_at := some env.now }
            updated := st1.updated + 1
            updatedIssueIdentifiers := st1.updatedIssueIdentifiers ++
              (if issue.identifier != "" then [issue.identifier] else []) }
       | none => { st1 with store := ur.1, skipped := st1.skipped + 1 }) := by
  unfold pullStep
  simp only [hid, Bool.not_true, if_false, hget, hart, hfile, Option.getD_some,
    Option.isSome_some, Option.some_bind, hupd, hsync, ne_eq, hdiff,
    not_false_iff, and_true, true_and, if_true, decide_eq_true_eq, hlater,
    Bool.false_eq_true, ite_false, ite_true]

/-- Claim C2: during pull, a mapping entry whose local artifact
content differs from the remote description and whose artifact was updated
strictly after the later of last-pulled-at and last-pushed-at gets (with
conflict copies enabled) exactly one conflict-copy artifact — named with the
` (conflict)` suffix, tagged `conflict`, holding the pre-pull local content at
a fresh path — exactly one appended conflict record referencing the original
artifact id and the copy id, and the original artifact is still overwritten
with the remote issue's title and description. -/
theorem C2_theorem (env : Env) (st : PullState) (aid : String)
    (entry : MappingEntry) (issue : GotIssue) (art : Artifact)
    (content : String) (u t : Nat)
    (hid : truthyS entry.issue_id = true)
    (hget : clientGetIssue env (entry.issue_id.getD "") = .ok issue)
    (hart : storeGetArtifact st.store aid = some art)
    (hfile : lookupA st.store.files (artifactPath art) = some content)
    (hdiff : content ≠ issue.description)
    (hupd : art.updated_at = some u)
    (hsync : maxTs entry.last_pulled_at entry.last_pushed_at = some t)
    (hlater : t < u) :
    ∃ copy : Artifact,
      copy.name = art.name ++ " (conflict)" ∧
      copy.tags = art.tags ++ ["conflict"] ∧
      (pullStep env true st (aid, entry)).store.conflicts =
        st.store.conflicts ++
          [{ artifact_id := aid
             source := "linear"
             note := "Local edits detected during pull; conflict copy created."
             conflict_artifact_id := some copy.id
             created_at := some env.now }] ∧
      (pullStep env true st (aid, entry)).store.artifacts =
        replaceFirst st.store.artifacts aid
          { art with
            name := issue.title
            size_bytes := issue.description.length
            updated_at := some env.now } ++ [copy] ∧
      (pullStep env true st (aid, entry)).store.artifacts.length =
        st.store.artifacts.length + 1 ∧
      lookupA (pullStep env true st (aid, entry)).store.files (artifactPath copy) =
        some content ∧
      artifactPath copy ≠ artifactPath art ∧
      lookupA (pullStep env true st (aid, entry)).store.files (artifactPath art) =
        some issue.description ∧
      (pullStep env true st (aid, entry)).updated = st.updated + 1 := by
  obtain ⟨copy, stc, hcc, hA, hC, hF, hname, htags, hfresh, hpathne⟩ :=
    createConflictCopy_fields st.store env.now
      { artifact_id := aid
        source := "linear"
        note := "Local edits detected during pull; conflict copy created." }
      art content hart hfile
  have hart2 : stc.artifacts.find? (fun a => a.id == aid) = some art := by
    rw [hA]
    exact find?_append_some _ _ _ _ hart
  have hur := updateArtifact_name_content stc env.now aid issue.title
    issue.description art hart2
  rw [pullStep_conflict_eq env st aid entry issue art content u t hid hget hart
    hfile hdiff hupd hsync hlater]
  rw [hcc]
  dsimp only
  rw [hur]
  refine ⟨copy, hname, htags, hC, ?_, ?_, ?_, hpathne, ?_, rfl⟩
  · show replaceFirst stc.artifacts aid
        { art with
          name := issue.title
          size_bytes := issue.description.length
          updated_at := some env.now } =
      replaceFirst st.store.artifacts aid
        { art with
          name := issue.title
          size_bytes := issue.description.length
          updated_at := some env.now } ++ [copy]
    rw [hA]
    exact replaceFirst_append_left _ _ _ _ _ hart
  · show (replaceFirst stc.artifacts aid
        { art with
          name := issue.title
          size_bytes := issue.description.length
          updated_at := some env.now }).length = st.store.artifacts.length + 1
    rw [hA, replaceFirst_append_left _ _ _ _ _ hart]
    simp [replaceFirst_length]
  · show lookupA (setA stc.files (artifactPath art) issue.description)
        (artifactPath copy) = some content
    rw [lookupA_setA_ne _ _ _ _ (Ne.symm hpathne), hF, lookupA_setA_self]
  · show lookupA (setA stc.files (artifactPath art) issue.description)
        (artifactPath art) = some issue.description
    exact lookupA_setA_self _ _ _

/-- The locally edited artifact of the conflict scenario. -/
def artC2 : Artifact :=
  { id := "a1", name := "Login Flow", filename := "login-flow.md",
    kind := "note", mime_type := "text/markdown", size_bytes := 12,
    tags := [], created_at := some 50, updated_at := some 300 }

/-- Its mapping entry: last pushed at 200, last pulled at 100, so the
last sync is 200, before the local edit at 300. -/
def entryC2 : MappingEntry :=
  { issue_id := some "iss-1", last_pushed_at := some 200, last_pulled_at := some 100 }

/-- The validated remote issue of the conflict scenario. -/
def issC2 : GotIssue :=
  { id := "iss-1", identifier := "ENG-1", title := "Login Flow v2",
    description := "remote text" }

/-- The conflict-scenario environment: fetching `iss-1` succeeds with
a new title and description. -/
def envC2 : Env :=
  { envTrivial with
    getIssue := fun iid =>
      if iid = "iss-1" then
        .ok { id := some "iss-1", identifier := some "ENG-1",
              title := some "Login Flow v2", description := some "remote text" }
      else .error "net",
    now := 1000 }

/-- The conflict-scenario store: one artifact whose file holds
locally edited content. -/
def storeC2 : StoreState :=
  { artifacts := [artC2], conflicts := [],
    files := [(artifactPath artC2, "local edited")], nextId := 0 }

/-- The initial pull state of the conflict scenario. -/
def stC2 : PullState :=
  { mapping := [("a1", entryC2)], store := storeC2 }

/-- The conflict scenario satisfies every hypothesis of `C2_theorem`,
which then yields the conflict copy, the conflict record and the overwrite. -/
theorem C2_witness :
    truthyS entryC2.issue_id = true ∧
    clientGetIssue envC2 (entryC2.issue_id.getD "") = .ok issC2 ∧
    storeGetArtifact stC2.store "a1" = some artC2 ∧
    lookupA stC2.store.files (artifactPath artC2) = some "local edited" ∧
    "local edited" ≠ issC2.description ∧
    artC2.updated_at = some 300 ∧
    maxTs entryC2.last_pulled_at entryC2.last_pushed_at = some 200 ∧
    200 < 300 ∧
    (∃ copy : Artifact,
      copy.name = artC2.name ++ " (conflict)" ∧
      copy.tags = artC2.tags ++ ["conflict"] ∧
      (pullStep envC2 true stC2 ("a1", entryC2)).store.conflicts =
        stC2.store.conflicts ++
          [{ artifact_id := "a1"
             source := "linear"
             note := "Local edits detected during pull; conflict copy created."
             conflict_artifact_id := some copy.id
             created_at := some envC2.now }] ∧
      (pullStep envC2 true stC2 ("a1", entryC2)).store.artifacts =
        replaceFirst stC2.store.artifacts "a1"
          { artC2 with
            name := issC2.title
            size_bytes := issC2.description.length
            updated_at := some envC2.now } ++ [copy] ∧
      (pullStep envC2 true stC2 ("a1", entryC2)).store.artifacts.length =
        stC2.store.artifacts.length + 1 ∧
      lookupA (pullStep envC2 true stC2 ("a1", entryC2)).store.files
        (artifactPath copy) = some "local edited" ∧
      artifactPath copy ≠ artifactPath artC2 ∧
      lookupA (pullStep envC2 true stC2 ("a1", entryC2)).store.files
        (artifactPath artC2) = some issC2.description ∧
      (pullStep envC2 true stC2 ("a1", entryC2)).updated = stC2.updated + 1) :=
  ⟨rfl, rfl, rfl, rfl, by decide, rfl, rfl, by decide,
   C2_theorem envC2 stC2 "a1" entryC2 issC2 artC2 "local edited" 300 200
     rfl rfl rfl rfl (by decide) rfl rfl (by decide)⟩

end Reffy
